import Mathlib

/-!
Verification of atv3: star field, collision state machine and shader selection

A shallow embedding of `OpenGLWindow` (openglwindow.hpp / openglwindow.cpp).

* `float` values are idealised as elements of a linearly ordered field `K`
  (the rationals for executable examples, the reals where a square root is
  needed); the literals `0.1f`, `0.5f`, ... are the exact fractions.
* The random engine is the number of draws taken so far; the value of the
  n-th draw through `uniform_real_distribution(a, b)` is `Env.rnd n a b`.
* One `update()` call reads the clock once (`now`); a timer restarted inside
  the call therefore reads `0` for the rest of that call.
* A float vector with a component that is not a finite number (`glm::normalize`
  of the zero vector is `0 * inf`, a vector of NaNs) is `none`; the rotation axes
  are therefore stored as `Option (Vec3 K)`.
* Rendering-only members (`m_angle`, the matrices, `m_FOV`, the viewport, the
  material coefficients, the skybox buffers) are read by no operation below
  and are left out of the state.
-/

namespace Atv3

/-! ## Data model -/

/-- Three floats, as `glm::vec3`. -/
structure Vec3 (K : Type) where
  x : K
  y : K
  z : K

/-- Modelled from the spec: `abcg::ElapsedTimer` (its source is not part of the
two files). A polled wall-clock timer: it remembers when it was last
(re)started, `elapsed` is the time since then, `restart` begins counting from
zero again. -/
structure ElapsedTimer (K : Type) where
  start : K

/-- Modelled from the spec: a compiled and linked shading program, as returned by
`createProgramFromFile`: a fresh GL handle together with the shader name it was
built from. -/
structure Program where
  handle : Nat
  shader : String
deriving DecidableEq, Repr

/-- Modelled from the spec: the part of the `Model` class (model.hpp, not among
the two files) that `OpenGLWindow` drives: the mesh that was loaded, whether it
carries texture coordinates (`isUVMapped`), the program its vertex array is
bound against, and how many times `setupVAO` has run on it. -/
structure Model where
  obj : Option String
  diffuseTexture : Option String
  uvMapped : Bool
  vao : Option Program
  setupVAOCalls : Nat
deriving DecidableEq, Repr

/-- The constant `static const int m_numStars{320}`. -/
def m_numStars : Nat := 320

/-- The members of `OpenGLWindow` that the simulation and the UI read or write,
the function-static `currentIndex` of the shader combo box of `paintUI`, and
the count of GL program objects created so far. -/
structure OpenGLWindow (K : Type) where
  m_randomEngine : Nat
  m_star : Model
  m_ship : Model
  m_starPositions : Fin m_numStars → Vec3 K
  m_starRotations : Fin m_numStars → Option (Vec3 K)
  cont_collisions : Int
  isLose : Bool
  m_collisionTimer : ElapsedTimer K
  m_restartWaitTimer : ElapsedTimer K
  m_shipPosition : Vec3 K
  m_programs : List Program
  m_currentProgramIndex : Int
  m_mappingMode : Int
  m_skyProgram : Nat
  shaderComboIndex : Nat
  glPrograms : Nat

/-- What lies outside the two source files: the stream of random draws, the
inverse square root used by `glm::normalize` (`none` where its result is not a
finite number: at 0 it is `+inf`), and whether an OBJ asset carries texture
coordinates. -/
structure Env (K : Type) where
  rnd : Nat → K → K → K
  inversesqrt : K → Option K
  hasUV : String → Bool

/-- What the user does in the widget window during one `paintUI()` frame: whether
each combo box is open (`ImGui::BeginCombo`) and which entries report a click
(`ImGui::Selectable`). -/
structure UIFrame where
  shaderComboOpen : Bool
  shaderSelectable : Nat → Bool
  mappingComboOpen : Bool
  mappingSelectable : Nat → Bool

/-- The member `std::vector<const char*> m_shaderNames`. -/
def m_shaderNames : List String :=
  ["texture", "blinnphong", "phong", "gouraud", "normal", "depth"]

/-- The member `m_skyShaderName` (declared outside the two files; only its program handle
matters here). -/
def m_skyShaderName : String := "skybox"

section Operations

variable {K : Type} [LinearOrderedField K]

/-- The call `ElapsedTimer::elapsed()`, read at clock value `now`. -/
def ElapsedTimer.elapsed (t : ElapsedTimer K) (now : K) : K := now - t.start

/-- The call `ElapsedTimer::restart()`, made at clock value `now`. -/
def ElapsedTimer.restart (_t : ElapsedTimer K) (now : K) : ElapsedTimer K := ⟨now⟩

/-- The lookup `std::vector::at` with an `int` index: a negative index converts to a huge
unsigned one and is out of range like any index past the end. -/
def vectorAt {α : Type} (v : List α) (i : Int) : Option α :=
  if 0 ≤ i then v[i.toNat]? else none

/-- The call `Model::terminateGL()`: the vertex array is released. -/
def Model.terminateGL (m : Model) : Model := { m with vao := none }

/-- The call `Model::loadDiffuseTexture(path)`. -/
def Model.loadDiffuseTexture (m : Model) (path : String) : Model :=
  { m with diffuseTexture := some path }

/-- The call `Model::loadObj(path)`: the mesh is read, and with it whether it has
texture coordinates. -/
def Model.loadObj (env : Env K) (m : Model) (path : String) : Model :=
  { m with obj := some path, uvMapped := env.hasUV path }

/-- The call `Model::setupVAO(program)`: the vertex array is rebuilt against the
attribute locations of `program`. -/
def Model.setupVAO (m : Model) (program : Program) : Model :=
  { m with vao := some program, setupVAOCalls := m.setupVAOCalls + 1 }

/-- The query `Model::isUVMapped()`. -/
def Model.isUVMapped (m : Model) : Bool := m.uvMapped

/-- The product `glm::dot`. -/
def dot (a b : Vec3 K) : K := a.x * b.x + a.y * b.y + a.z * b.z

/-- The function `glm::normalize(v)`, which glm computes as `v * inversesqrt(dot(v, v))`;
`none` when the inverse square root is not finite, where the product has NaN
components (`0 * inf` for the zero vector). -/
def normalize (inversesqrt : K → Option K) (v : Vec3 K) : Option (Vec3 K) :=
  (inversesqrt (dot v v)).map fun s => ⟨v.x * s, v.y * s, v.z * s⟩

/-- The vector `glm::vec3(distPosXY(m_randomEngine), distPosXY(m_randomEngine),
distPosZ(m_randomEngine))` of `randomizeStar`, drawn with the engine at `e`. -/
def drawPosition (env : Env K) (e : Nat) : Vec3 K :=
  ⟨env.rnd e (-30) 30, env.rnd (e + 1) (-30) 30, env.rnd (e + 2) (-100) (-30)⟩

/-- The three `distRotAxis` draws of `randomizeStar`, which follow the three
position draws. -/
def drawAxis (env : Env K) (e : Nat) : Vec3 K :=
  ⟨env.rnd (e + 3) (-1) 1, env.rnd (e + 4) (-1) 1, env.rnd (e + 5) (-1) 1⟩

/-- The method `OpenGLWindow::randomizeStar`, applied to the star at `index`: six draws in
source order, three for the position and three for the axis. -/
def randomizeStar (env : Env K) (index : Fin m_numStars) (w : OpenGLWindow K) :
    OpenGLWindow K :=
  let position := drawPosition env w.m_randomEngine
  let rotation := normalize env.inversesqrt (drawAxis env w.m_randomEngine)
  { w with
    m_starPositions := Function.update w.m_starPositions index position
    m_starRotations := Function.update w.m_starRotations index rotation
    m_randomEngine := w.m_randomEngine + 6 }

/-- The call `createProgramFromFile` followed by `m_programs.push_back`. -/
def pushProgram (w : OpenGLWindow K) (name : String) : OpenGLWindow K :=
  { w with
    glPrograms := w.glPrograms + 1
    m_programs := w.m_programs ++ [⟨w.glPrograms + 1, name⟩] }

/-- The method `OpenGLWindow::loadModel`, returning the reloaded model; `none` when
`m_programs.at(m_currentProgramIndex)` throws. -/
def loadModel (env : Env K) (path_obj path_text : String) (w : OpenGLWindow K)
    (model : Model) : Option Model :=
  let m := model.terminateGL
  let m := m.loadDiffuseTexture path_text
  let m := Model.loadObj env m path_obj
  (vectorAt w.m_programs w.m_currentProgramIndex).map fun program => m.setupVAO program

/-- The method `OpenGLWindow::initializeSkybox`: one more program object is created. -/
def initializeSkybox (w : OpenGLWindow K) : OpenGLWindow K :=
  { w with glPrograms := w.glPrograms + 1, m_skyProgram := w.glPrograms + 1 }

/-- The "Setup stars" loop of `initializeGL()` over a list of indices. -/
def setupStars (env : Env K) (w : OpenGLWindow K) (l : List (Fin m_numStars)) :
    OpenGLWindow K :=
  l.foldl (fun w index => randomizeStar env index w) w

/-- The "Create programs" loop of `initializeGL()`. -/
def createPrograms (w : OpenGLWindow K) : OpenGLWindow K :=
  m_shaderNames.foldl pushProgram w

/-- The "Load model" block of `initializeGL()`: the obstacle mesh is loaded and
`m_mappingMode = 3` is set; `none` when `loadModel` throws. -/
def loadStar (env : Env K) (w : OpenGLWindow K) : Option (OpenGLWindow K) :=
  (loadModel env "Mercury.obj" "Mercury.png" w w.m_star).map fun star =>
    { w with m_star := star, m_mappingMode := 3 }

/-- The ship block of `initializeGL()`: the ship mesh is loaded, then
`cont_collisions = 5` and `m_shipPosition = (0, 0, -0.1)` are set; `none` when
`loadModel` throws. -/
def loadShip (env : Env K) (w : OpenGLWindow K) : Option (OpenGLWindow K) :=
  (loadModel env "ship.obj" "ship_rough.jpg" w w.m_ship).map fun ship =>
    { w with m_ship := ship, cont_collisions := 5, m_shipPosition := ⟨0, 0, -(1 / 10)⟩ }

/-- The method `OpenGLWindow::initializeGL`, block after block: the programs, the
obstacle model and the mapping mode, the stars, the ship with lives and
position, the skybox; `none` when a `loadModel` throws. -/
def initializeGL (env : Env K) (w : OpenGLWindow K) : Option (OpenGLWindow K) :=
  (loadStar env (createPrograms w)).bind fun w =>
    (loadShip env (setupStars env w (List.finRange m_numStars))).map initializeSkybox

/-- The method `OpenGLWindow::restart`. -/
def restart (env : Env K) (w : OpenGLWindow K) : Option (OpenGLWindow K) :=
  initializeGL env { w with isLose := false }

/-- The overlap condition of `update()` (the three-axis test under
"Check Colisions"), for ship position `s` and obstacle position `p`. -/
def collides (s p : Vec3 K) : Bool :=
  (decide (s.x ≤ p.x + 1 / 2) && decide (s.x ≥ p.x - 1 / 2))
    && (decide (s.y ≤ p.y + 6 / 10) && decide (s.y ≥ p.y - 6 / 10))
    && (decide (s.z ≤ p.z + 0) && decide (s.z ≥ p.z - 7 / 10))

/-- The body of `if (m_collisionTimer.elapsed() > 1)` in `update()`: a registered
hit. -/
def registerHit (now : K) (w : OpenGLWindow K) : OpenGLWindow K :=
  let w := { w with cont_collisions := w.cont_collisions - 1 }
  let w :=
    if w.cont_collisions = 0 then
      { w with
        isLose := true
        m_shipPosition := { w.m_shipPosition with z := 20 }
        m_restartWaitTimer := w.m_restartWaitTimer.restart now }
    else w
  { w with m_collisionTimer := w.m_collisionTimer.restart now }

/-- One iteration of the star loop of `update()`, for the star at `index`. -/
def updateStar (env : Env K) (now deltaTime : K) (w : OpenGLWindow K)
    (index : Fin m_numStars) : OpenGLWindow K :=
  let p := w.m_starPositions index
  let w := { w with
    m_starPositions := Function.update w.m_starPositions index { p with z := p.z + deltaTime * 15 } }
  if !w.isLose then
    let w := if 1 / 10 < (w.m_starPositions index).z then randomizeStar env index w else w
    if collides w.m_shipPosition (w.m_starPositions index) then
      if 1 < w.m_collisionTimer.elapsed now then registerHit now w else w
    else w
  else
    { w with
      m_starPositions :=
        Function.update w.m_starPositions index { (w.m_starPositions index) with z := 20 } }

/-- The star loop of `update()` over a list of indices. -/
def updateStars (env : Env K) (now deltaTime : K) (w : OpenGLWindow K)
    (l : List (Fin m_numStars)) : OpenGLWindow K :=
  l.foldl (updateStar env now deltaTime) w

/-- The method `OpenGLWindow::update`, called at clock value `now` with frame time
`deltaTime`. -/
def update (env : Env K) (now deltaTime : K) (w : OpenGLWindow K) :
    Option (OpenGLWindow K) :=
  if w.isLose && decide (5 < w.m_restartWaitTimer.elapsed now) then restart env w
  else some (updateStars env now deltaTime w (List.finRange m_numStars))

end Operations

/-- The key of an SDL keyboard event, as far as `handleEvent` tells keys apart. -/
inductive Keysym where
  | SDLK_UP | SDLK_w | SDLK_DOWN | SDLK_s | SDLK_LEFT | SDLK_a | SDLK_RIGHT | SDLK_d | other
deriving DecidableEq, Repr

/-- An `SDL_Event`: whether it is a key-down event, and its key. -/
structure SDL_Event where
  keyDown : Bool
  sym : Keysym

section Operations

variable {K : Type} [LinearOrderedField K]

/-- The method `OpenGLWindow::handleEvent`, with `deltaTime` the frame time it reads. -/
def handleEvent (ev : SDL_Event) (deltaTime : K) (w : OpenGLWindow K) : OpenGLWindow K :=
  if ev.keyDown then
    let s := w.m_shipPosition
    let s := if ev.sym = .SDLK_UP ∨ ev.sym = .SDLK_w then { s with y := s.y + deltaTime * 4 } else s
    let s := if ev.sym = .SDLK_DOWN ∨ ev.sym = .SDLK_s then { s with y := s.y - deltaTime * 4 } else s
    let s := if ev.sym = .SDLK_LEFT ∨ ev.sym = .SDLK_a then { s with x := s.x - deltaTime * 4 } else s
    let s := if ev.sym = .SDLK_RIGHT ∨ ev.sym = .SDLK_d then { s with x := s.x + deltaTime * 4 } else s
    { w with m_shipPosition := s }
  else w

/-- The loop of a combo box over its `size` entries: every entry whose
`Selectable` reports a click becomes the current one. -/
def comboLoop (isOpen : Bool) (selectable : Nat → Bool) (size : Nat) (current : Nat) : Nat :=
  if isOpen then
    (List.range size).foldl (fun cur index => if selectable index then index else cur) current
  else current

/-- The "Shader combo box" block of `paintUI()`; `none` when an `at` throws. -/
def paintShaderCombo (ui : UIFrame) (w : OpenGLWindow K) : Option (OpenGLWindow K) :=
  (m_shaderNames[w.shaderComboIndex]?).bind fun _ =>
  let currentIndex :=
    comboLoop ui.shaderComboOpen ui.shaderSelectable m_shaderNames.length w.shaderComboIndex
  let w := { w with shaderComboIndex := currentIndex }
  if (currentIndex : Int) ≠ w.m_currentProgramIndex then
    let w := { w with m_currentProgramIndex := (currentIndex : Int) }
    (vectorAt w.m_programs w.m_currentProgramIndex).bind fun program =>
    let w := { w with m_star := w.m_star.setupVAO program }
    (vectorAt w.m_programs w.m_currentProgramIndex).bind fun program =>
    some { w with m_ship := w.m_ship.setupVAO program }
  else some w

/-- The entries of the "UV mapping" combo box of `paintUI()`. -/
def comboItems (w : OpenGLWindow K) : List String :=
  ["Triplanar", "Cylindrical", "Spherical"] ++
    (if w.m_star.isUVMapped then ["From mesh"] else [])

/-- The "UV mapping box" block of `paintUI()`; `none` when
`comboItems.at(m_mappingMode)` throws. -/
def paintMappingCombo (ui : UIFrame) (w : OpenGLWindow K) : Option (OpenGLWindow K) :=
  (vectorAt (comboItems w) w.m_mappingMode).bind fun _ =>
  if ui.mappingComboOpen then
    some { w with
      m_mappingMode :=
        (List.range (comboItems w).length).foldl
          (fun mode index => if ui.mappingSelectable index then (index : Int) else mode)
          w.m_mappingMode }
  else some w

/-- The method `OpenGLWindow::paintUI`, without the projection combo box and the
texts it prints. -/
def paintUI (ui : UIFrame) (w : OpenGLWindow K) : Option (OpenGLWindow K) :=
  (paintShaderCombo ui w).bind (paintMappingCombo ui)

/-- A default-constructed `Model`. -/
def Model.fresh : Model :=
  { obj := none, diffuseTexture := none, uvMapped := false, vao := none, setupVAOCalls := 0 }

/-- A window as its constructor leaves it (the member initialisers of
openglwindow.hpp): the two timers started at `tc` and `tr`, the star arrays
holding whatever `pos` and `rot` they hold. -/
def OpenGLWindow.fresh (tc tr : K) (pos : Fin m_numStars → Vec3 K)
    (rot : Fin m_numStars → Option (Vec3 K)) : OpenGLWindow K :=
  { m_randomEngine := 0
    m_star := Model.fresh
    m_ship := Model.fresh
    m_starPositions := pos
    m_starRotations := rot
    cont_collisions := 2
    isLose := false
    m_collisionTimer := ⟨tc⟩
    m_restartWaitTimer := ⟨tr⟩
    m_shipPosition := ⟨0, 0, 0⟩
    m_programs := []
    m_currentProgramIndex := 0
    m_mappingMode := 0
    m_skyProgram := 0
    shaderComboIndex := 0
    glPrograms := 0 }

/-- A cold start: the result of a first `initializeGL()` on a fresh window. -/
def ColdStart (env : Env K) (w : OpenGLWindow K) : Prop :=
  ∃ (tc tr : K) (pos : Fin m_numStars → Vec3 K) (rot : Fin m_numStars → Option (Vec3 K)),
    initializeGL env (OpenGLWindow.fresh tc tr pos rot) = some w

/-- One step of the application: an `update()` tick with non-negative frame time
(a restart happens inside it), a `paintUI()` frame, or a key event. -/
def Step (env : Env K) (w w' : OpenGLWindow K) : Prop :=
  (∃ now deltaTime : K, 0 ≤ deltaTime ∧ update env now deltaTime w = some w') ∨
  (∃ ui : UIFrame, paintUI ui w = some w') ∨
  (∃ (ev : SDL_Event) (deltaTime : K), handleEvent ev deltaTime w = w')

/-- The states the application can be in: a cold start followed by any number
of steps. -/
inductive Reachable (env : Env K) : OpenGLWindow K → Prop
  | init (w : OpenGLWindow K) : ColdStart env w → Reachable env w
  | step (w w' : OpenGLWindow K) : Reachable env w → Step env w w' → Reachable env w'

end Operations

/-! ## Observers used in the statements -/

section Observers

variable {K : Type} [LinearOrderedField K]

/-- The window after the movement part of one iteration of the star loop: the
star at `index` is advanced, then recycled when past the threshold (playing)
or pinned (lost); the collision block is left out. -/
def moveStar (env : Env K) (deltaTime : K) (w : OpenGLWindow K) (index : Fin m_numStars) :
    OpenGLWindow K :=
  let p := w.m_starPositions index
  let w := { w with
    m_starPositions := Function.update w.m_starPositions index { p with z := p.z + deltaTime * 15 } }
  if !w.isLose then
    if 1 / 10 < (w.m_starPositions index).z then randomizeStar env index w else w
  else
    { w with
      m_starPositions :=
        Function.update w.m_starPositions index { (w.m_starPositions index) with z := 20 } }

/-- Whether the iteration of the star loop for `index`, started in `w`, finds
the star overlapping the ship: the game is being played and the overlap
condition holds for the position the star has after its movement. -/
def overlapsAtTurn (env : Env K) (deltaTime : K) (w : OpenGLWindow K)
    (index : Fin m_numStars) : Bool :=
  !w.isLose && collides w.m_shipPosition ((moveStar env deltaTime w index).m_starPositions index)

/-- Whether some iteration of the star loop over `l`, started in `w`, finds its
star overlapping the ship. -/
def anyOverlap (env : Env K) (now deltaTime : K) :
    OpenGLWindow K → List (Fin m_numStars) → Bool
  | _, [] => false
  | w, index :: l =>
    overlapsAtTurn env deltaTime w index ||
      anyOverlap env now deltaTime (updateStar env now deltaTime w index) l

/-- The game fields of two windows agree: remaining lives, game state, both
timers and the ship position. -/
def SameGame (w w' : OpenGLWindow K) : Prop :=
  w'.cont_collisions = w.cont_collisions ∧ w'.isLose = w.isLose ∧
  w'.m_collisionTimer = w.m_collisionTimer ∧
  w'.m_restartWaitTimer = w.m_restartWaitTimer ∧
  w'.m_shipPosition = w.m_shipPosition

/-- What one registered hit does to the game fields of `w`, giving `w'`: one life
less and the debounce timer restarted at `now`; at zero lives the game is
lost, the ship is moved to depth 20 and the restart-delay timer is restarted;
otherwise game state, ship and restart-delay timer stay. -/
def HitOutcome (now : K) (w w' : OpenGLWindow K) : Prop :=
  w'.cont_collisions = w.cont_collisions - 1 ∧ w'.m_collisionTimer = ⟨now⟩ ∧
  (w.cont_collisions - 1 = 0 →
    w'.isLose = true ∧ w'.m_shipPosition = { w.m_shipPosition with z := 20 } ∧
      w'.m_restartWaitTimer = ⟨now⟩) ∧
  (w.cont_collisions - 1 ≠ 0 →
    w'.isLose = w.isLose ∧ w'.m_shipPosition = w.m_shipPosition ∧
      w'.m_restartWaitTimer = w.m_restartWaitTimer)

/-- The fields no iteration of the star loop writes agree: both models, the
program list, the active program index, the UV-mapping mode, the skybox
program, the shader combo selection and the program-object count. -/
def SameSetup (w w' : OpenGLWindow K) : Prop :=
  w'.m_star = w.m_star ∧ w'.m_ship = w.m_ship ∧ w'.m_programs = w.m_programs ∧
  w'.m_currentProgramIndex = w.m_currentProgramIndex ∧
  w'.m_mappingMode = w.m_mappingMode ∧ w'.m_skyProgram = w.m_skyProgram ∧
  w'.shaderComboIndex = w.shaderComboIndex ∧ w'.glPrograms = w.glPrograms

/-- What an iteration of the star loop, run while playing with frame time
`deltaTime`, makes of a star with position `p` and axis `r`: past the threshold
0.1 the star gets freshly drawn values, otherwise it is only advanced. -/
def StarRule (env : Env K) (deltaTime : K) (p : Vec3 K) (r : Option (Vec3 K)) (p' : Vec3 K)
    (r' : Option (Vec3 K)) : Prop :=
  (1 / 10 < p.z + deltaTime * 15 →
    ∃ e : Nat, p' = drawPosition env e ∧ r' = normalize env.inversesqrt (drawAxis env e)) ∧
  (¬ 1 / 10 < p.z + deltaTime * 15 →
    p' = ⟨p.x, p.y, p.z + deltaTime * 15⟩ ∧ r' = r ∧ p.z ≤ p'.z)

/-- The six programs `initializeGL()` compiles, in the order of `m_shaderNames`,
when `g` program objects exist already. -/
def compiledPrograms (g : Nat) : List Program :=
  [⟨g + 1, "texture"⟩, ⟨g + 2, "blinnphong"⟩, ⟨g + 3, "phong"⟩, ⟨g + 4, "gouraud"⟩,
    ⟨g + 5, "normal"⟩, ⟨g + 6, "depth"⟩]

/-- What `initializeGL()` makes of a window `w`, giving `w'`. -/
structure InitOutcome (env : Env K) (w w' : OpenGLWindow K) : Prop where
  lives : w'.cont_collisions = 5
  ship : w'.m_shipPosition = ⟨0, 0, -(1 / 10)⟩
  mode : w'.m_mappingMode = 3
  lose : w'.isLose = w.isLose
  index : w'.m_currentProgramIndex = w.m_currentProgramIndex
  combo : w'.shaderComboIndex = w.shaderComboIndex
  programs : w'.m_programs = w.m_programs ++ compiledPrograms w.glPrograms
  collisionTimer : w'.m_collisionTimer = w.m_collisionTimer
  restartTimer : w'.m_restartWaitTimer = w.m_restartWaitTimer
  starUV : w'.m_star.uvMapped = env.hasUV "Mercury.obj"
  starVAO : w'.m_star.vao = vectorAt w'.m_programs w'.m_currentProgramIndex
  shipVAO : w'.m_ship.vao = vectorAt w'.m_programs w'.m_currentProgramIndex
  stars : ∀ i : Fin m_numStars, ∃ k : Nat,
    w'.m_starPositions i = drawPosition env (w.m_randomEngine + 6 * k) ∧
    w'.m_starRotations i = normalize env.inversesqrt (drawAxis env (w.m_randomEngine + 6 * k))

/-- What holds of the UI-related fields in every reachable state: the first six
programs are those of the cold start, the active program index is the shader
combo selection and is below six, and the UV-mapping mode is between 0 and 3. -/
def UIInv (env : Env K) (w : OpenGLWindow K) : Prop :=
  w.m_programs.take 6 = compiledPrograms 0 ∧
  w.m_currentProgramIndex = (w.shaderComboIndex : Int) ∧ w.shaderComboIndex < 6 ∧
  0 ≤ w.m_mappingMode ∧ w.m_mappingMode ≤ 3 ∧
  w.m_star.uvMapped = env.hasUV "Mercury.obj"

/-- While the game is being played, every star has its depth in `[-100, 0.1]`. -/
def DepthOK (w : OpenGLWindow K) : Prop :=
  w.isLose = false →
    ∀ i : Fin m_numStars, -100 ≤ (w.m_starPositions i).z ∧ (w.m_starPositions i).z ≤ 1 / 10

/-- What a `paintUI()` frame with user input `ui` makes of a window `w`, giving
`w'`: the shader combo selection after the frame's clicks becomes the active
program index; when it differs from the previous active index both models are
set up once against the newly active program, otherwise they are untouched;
the simulation fields are untouched. -/
structure PaintOutcome (ui : UIFrame) (w w' : OpenGLWindow K) : Prop where
  combo : w'.shaderComboIndex =
    comboLoop ui.shaderComboOpen ui.shaderSelectable m_shaderNames.length w.shaderComboIndex
  index : w'.m_currentProgramIndex = (w'.shaderComboIndex : Int)
  rebuilt : (w'.shaderComboIndex : Int) ≠ w.m_currentProgramIndex →
    ∃ p : Program, vectorAt w.m_programs w'.m_currentProgramIndex = some p ∧
      w'.m_star = w.m_star.setupVAO p ∧ w'.m_ship = w.m_ship.setupVAO p
  kept : (w'.shaderComboIndex : Int) = w.m_currentProgramIndex →
    w'.m_star = w.m_star ∧ w'.m_ship = w.m_ship
  programs : w'.m_programs = w.m_programs
  game : SameGame w w'
  positions : w'.m_starPositions = w.m_starPositions
  rotations : w'.m_starRotations = w.m_starRotations
  modeLow : 0 ≤ w'.m_mappingMode
  modeHigh : w'.m_mappingMode ≤ 3

/-- Every draw lies within the range of the distribution it is drawn through. -/
def DrawsInRange (env : Env K) : Prop :=
  ∀ (n : Nat) (a b : K), a ≤ b → a ≤ env.rnd n a b ∧ env.rnd n a b ≤ b

/-- The position box of a freshly randomised star. -/
def InSpawnBox (p : Vec3 K) : Prop :=
  (-30 ≤ p.x ∧ p.x ≤ 30) ∧ (-30 ≤ p.y ∧ p.y ≤ 30) ∧ (-100 ≤ p.z ∧ p.z ≤ -30)

/-- The Euclidean length `glm::length` over the reals. -/
noncomputable def length (v : Vec3 ℝ) : ℝ := Real.sqrt (dot v v)

/-- A sequence of `update()` calls, each with its clock value and frame time. -/
def runTicks (env : Env K) : List (K × K) → OpenGLWindow K → Option (OpenGLWindow K)
  | [], w => some w
  | (now, deltaTime) :: ticks, w => (update env now deltaTime w).bind (runTicks env ticks)

/-- The number of hits the debounce rule registers over a sequence of ticks played
from `w`, told from the overlaps alone: `last` is the time of the last
registered hit, and a tick registers a hit when some star overlaps the ship at
its turn strictly more than 1 second after `last`. -/
def registeredHits (env : Env K) : K → OpenGLWindow K → List (K × K) → Nat
  | _, _, [] => 0
  | last, w, (now, deltaTime) :: ticks =>
    if anyOverlap env now deltaTime w (List.finRange m_numStars) = true ∧ 1 < now - last then
      registeredHits env now
        (updateStars env now deltaTime w (List.finRange m_numStars)) ticks + 1
    else
      registeredHits env last (updateStars env now deltaTime w (List.finRange m_numStars)) ticks

/-- The time of the last registered hit after a sequence of ticks played from
`w`, told from the overlaps alone as in `registeredHits`. -/
def lastHit (env : Env K) : K → OpenGLWindow K → List (K × K) → K
  | last, _, [] => last
  | last, w, (now, deltaTime) :: ticks =>
    if anyOverlap env now deltaTime w (List.finRange m_numStars) = true ∧ 1 < now - last then
      lastHit env now (updateStars env now deltaTime w (List.finRange m_numStars)) ticks
    else lastHit env last (updateStars env now deltaTime w (List.finRange m_numStars)) ticks

end Observers

/-! ## Concrete inputs -/

section Concrete

variable {K : Type} [LinearOrderedField K]

/-- The first star of the arrays. -/
def firstStar : Fin m_numStars := ⟨0, by decide⟩

/-- The first star reaches the ship in a tick of frame time `deltaTime`: the game
is being played, the ship is at its start position `(0, 0, -0.1)`, and the first
star is straight ahead at the depth that the tick advances to 0. -/
def Aligned (deltaTime : K) (w : OpenGLWindow K) : Prop :=
  w.isLose = false ∧ w.m_shipPosition = ⟨0, 0, -(1 / 10)⟩ ∧
  (w.m_starPositions firstStar).x = 0 ∧ (w.m_starPositions firstStar).y = 0 ∧
  (w.m_starPositions firstStar).z + deltaTime * 15 = 0

/-- Rational draws that lie in the range of their distribution: positions
`(0, 0, -30)` and axis draws `(1, 0, 0)`, at whose squared length 1 the inverse
square root is 1; the obstacle mesh has texture coordinates. -/
def envQ : Env ℚ :=
  { rnd := fun n a b => if n % 6 = 2 ∨ n % 6 = 3 then b else (a + b) / 2
    inversesqrt := fun d => if 0 < d then some 1 else none
    hasUV := fun _ => true }

/-- The same draws with an obstacle mesh that has no texture coordinates. -/
def envNoUV : Env ℚ :=
  { rnd := envQ.rnd, inversesqrt := envQ.inversesqrt, hasUV := fun _ => false }

/-- A fresh window over the rationals, timers started at 0. -/
def freshQ : OpenGLWindow ℚ :=
  OpenGLWindow.fresh 0 0 (fun _ => ⟨0, 0, 0⟩) (fun _ => some ⟨0, 0, 0⟩)

/-- A playing window with the given number of lives, the ship at its start
position and every star at the origin. -/
def playingQ (lives : Int) : OpenGLWindow ℚ :=
  { freshQ with cont_collisions := lives, m_shipPosition := ⟨0, 0, -(1 / 10)⟩ }

/-- A frame in which the user clicks entry `n` of the open shader combo box. -/
def uiSelectShader (n : Nat) : UIFrame :=
  { shaderComboOpen := true
    shaderSelectable := fun index => index == n
    mappingComboOpen := false
    mappingSelectable := fun _ => false }

/-- A frame in which the user touches nothing. -/
def uiIdle : UIFrame :=
  { shaderComboOpen := false
    shaderSelectable := fun _ => false
    mappingComboOpen := false
    mappingSelectable := fun _ => false }

/-- The cold start of the rational example. -/
def coldQ : Option (OpenGLWindow ℚ) := initializeGL envQ freshQ

/-- The run of the rational example up to its first registered hit: a tick at
time 2 with frame time 2 brings the stars from depth -30 to the ship. -/
def hitOnceQ : Option (OpenGLWindow ℚ) := coldQ.bind (update envQ 2 2)

/-- The run of the rational example up to the loss: after the first hit the user
selects shader 2, then four more ticks at times 4, 6, 8 and 10 each register a
hit. -/
def lostQ : Option (OpenGLWindow ℚ) :=
  ((((hitOnceQ.bind (paintUI (uiSelectShader 2))).bind (update envQ 4 0)).bind
    (update envQ 6 0)).bind (update envQ 8 0)).bind (update envQ 10 0)

end Concrete

/-! ## Collision box (C7) -/

section Geometry

variable {K : Type} [LinearOrderedField K]

/-- C7, as amended: the overlap condition of `update()` holds exactly when
`|s.x - p.x| ≤ 0.5`, `|s.y - p.y| ≤ 0.6` and the obstacle depth lies between the
ship depth and the ship depth plus 0.7, `s.z ≤ p.z ≤ s.z + 0.7`. -/
theorem collides_iff_box (s p : Vec3 K) :
    collides s p = true ↔
      |s.x - p.x| ≤ 1 / 2 ∧ |s.y - p.y| ≤ 6 / 10 ∧ s.z ≤ p.z ∧ p.z ≤ s.z + 7 / 10 := by
  simp only [collides, Bool.and_eq_true, decide_eq_true_eq, abs_le, ge_iff_le, add_zero]
  constructor
  · rintro ⟨⟨⟨h1, h2⟩, h3, h4⟩, h5, h6⟩
    refine ⟨⟨?_, ?_⟩, ⟨?_, ?_⟩, h5, ?_⟩ <;> linarith
  · rintro ⟨⟨h1, h2⟩, ⟨h3, h4⟩, h5, h6⟩
    refine ⟨⟨⟨?_, ?_⟩, ?_, ?_⟩, h5, ?_⟩ <;> linarith

/-- C7, counterexample to the claim as stated: with the ship at `(0, 0, -0.1)`
and an obstacle at `(0, 0, -0.5)` the claimed box `s.z - 0.7 ≤ p.z ≤ s.z` holds,
yet the overlap condition of `update()` is false. -/
theorem collides_claimed_box_fails :
    ¬ (collides (⟨0, 0, -(1 / 10)⟩ : Vec3 ℚ) ⟨0, 0, -(1 / 2)⟩ = true ↔
        |(0 : ℚ) - 0| ≤ 1 / 2 ∧ |(0 : ℚ) - 0| ≤ 6 / 10 ∧
          (-(1 / 10) : ℚ) - 7 / 10 ≤ -(1 / 2) ∧ (-(1 / 2) : ℚ) ≤ -(1 / 10)) := by
  simp only [collides]
  norm_num

end Geometry


/-! ## The star loop of `update()` -/

theorem sameGame_refl {K : Type} (w : OpenGLWindow K) : SameGame w w :=
  ⟨rfl, rfl, rfl, rfl, rfl⟩

theorem sameGame_trans {K : Type} {a b c : OpenGLWindow K} (h1 : SameGame a b)
    (h2 : SameGame b c) : SameGame a c := by
  obtain ⟨a1, a2, a3, a4, a5⟩ := h1
  obtain ⟨b1, b2, b3, b4, b5⟩ := h2
  exact ⟨b1.trans a1, b2.trans a2, b3.trans a3, b4.trans a4, b5.trans a5⟩

section StarLoop

variable {K : Type} [LinearOrderedField K] (env : Env K) (now dt : K)

/-- The movement part of an iteration leaves the game fields alone. -/
theorem moveStar_sameGame (w : OpenGLWindow K) (i : Fin m_numStars) :
    SameGame w (moveStar env dt w i) := by
  unfold moveStar SameGame
  cases h : w.isLose <;> simp [h]
  split_ifs <;> simp [randomizeStar, h]

/-- An iteration of the star loop is its movement part, followed by a registered
hit exactly when the star overlaps the ship and the debounce timer is past 1. -/
theorem updateStar_eq (w : OpenGLWindow K) (i : Fin m_numStars) :
    updateStar env now dt w i =
      if overlapsAtTurn env dt w i = true ∧ 1 < w.m_collisionTimer.elapsed now then
        registerHit now (moveStar env dt w i)
      else moveStar env dt w i := by
  unfold updateStar overlapsAtTurn moveStar
  cases h : w.isLose <;> simp [h]
  · split_ifs <;> simp_all [randomizeStar]

/-- When the game is lost, or the debounce timer is not past 1, an iteration
leaves the game fields alone. -/
theorem updateStar_sameGame (w : OpenGLWindow K) (i : Fin m_numStars)
    (h : w.isLose = true ∨ ¬ 1 < w.m_collisionTimer.elapsed now) :
    SameGame w (updateStar env now dt w i) := by
  rw [updateStar_eq]
  have hcond : ¬ (overlapsAtTurn env dt w i = true ∧ 1 < w.m_collisionTimer.elapsed now) := by
    rintro ⟨h1, h2⟩
    rcases h with h | h
    · simp [overlapsAtTurn, h] at h1
    · exact h h2
  rw [if_neg hcond]
  exact moveStar_sameGame env dt w i

/-- When the game is lost, or the debounce timer is not past 1, the whole star
loop leaves the game fields alone. -/
theorem updateStars_sameGame (l : List (Fin m_numStars)) (w : OpenGLWindow K)
    (h : w.isLose = true ∨ ¬ 1 < w.m_collisionTimer.elapsed now) :
    SameGame w (updateStars env now dt w l) := by
  induction l generalizing w with
  | nil => exact sameGame_refl w
  | cons i l ih =>
    have h1 := updateStar_sameGame env now dt w i h
    have h2 : (updateStar env now dt w i).isLose = true ∨
        ¬ 1 < (updateStar env now dt w i).m_collisionTimer.elapsed now := by
      rw [h1.2.1, h1.2.2.1]
      exact h
    exact sameGame_trans h1 (ih _ h2)

/-- What a registered hit does to the game fields. -/
theorem registerHit_outcome (w : OpenGLWindow K) : HitOutcome now w (registerHit now w) := by
  unfold HitOutcome registerHit
  by_cases h : w.cont_collisions - 1 = 0 <;> simp [h, ElapsedTimer.restart]

/-- The game fields after the star loop of a tick that starts while playing: a hit is
registered exactly when the debounce timer is past 1 and some star overlaps
the ship at its turn, and then exactly once. -/
theorem updateStars_game (l : List (Fin m_numStars)) (w : OpenGLWindow K)
    (hplay : w.isLose = false) :
    ((1 < w.m_collisionTimer.elapsed now ∧ anyOverlap env now dt w l = true) →
        HitOutcome now w (updateStars env now dt w l)) ∧
      (¬ (1 < w.m_collisionTimer.elapsed now ∧ anyOverlap env now dt w l = true) →
        SameGame w (updateStars env now dt w l)) := by
  induction l generalizing w with
  | nil =>
    refine ⟨fun h => ?_, fun _ => sameGame_refl w⟩
    simp [anyOverlap] at h
  | cons i l ih =>
    have hstep : updateStars env now dt w (i :: l)
        = updateStars env now dt (updateStar env now dt w i) l := rfl
    rw [hstep]
    by_cases hc : overlapsAtTurn env dt w i = true ∧ 1 < w.m_collisionTimer.elapsed now
    · -- the hit is registered in this iteration
      have hw1 : updateStar env now dt w i = registerHit now (moveStar env dt w i) := by
        rw [updateStar_eq, if_pos hc]
      have hm := moveStar_sameGame env dt w i
      have ho := registerHit_outcome now (moveStar env dt w i)
      rw [← hw1] at ho
      have hrest : SameGame (updateStar env now dt w i)
          (updateStars env now dt (updateStar env now dt w i) l) := by
        apply updateStars_sameGame
        right
        rw [ho.2.1]
        simp [ElapsedTimer.elapsed]
      have hany : anyOverlap env now dt w (i :: l) = true := by
        simp [anyOverlap, hc.1]
      refine ⟨fun _ => ?_, fun hn => absurd ⟨hc.2, hany⟩ hn⟩
      obtain ⟨r1, r2, r3, r4, r5⟩ := hrest
      obtain ⟨m1, m2, m3, m4, m5⟩ := hm
      obtain ⟨o1, o2, o3, o4⟩ := ho
      rw [m1] at o1 o3 o4
      rw [m2, m5, m4] at o4
      rw [m5] at o3
      refine ⟨r1.trans o1, r3.trans o2, fun hz => ?_, fun hz => ?_⟩
      · obtain ⟨p1, p2, p3⟩ := o3 hz
        exact ⟨r2.trans p1, r5.trans p2, r4.trans p3⟩
      · obtain ⟨p1, p2, p3⟩ := o4 hz
        exact ⟨r2.trans p1, r5.trans p2, r4.trans p3⟩
    · -- no hit in this iteration
      have hw1 : updateStar env now dt w i = moveStar env dt w i := by
        rw [updateStar_eq, if_neg hc]
      have hm : SameGame w (updateStar env now dt w i) := by
        rw [hw1]
        exact moveStar_sameGame env dt w i
      have hplay1 : (updateStar env now dt w i).isLose = false := by
        rw [hm.2.1]
        exact hplay
      have hiff : (1 < w.m_collisionTimer.elapsed now ∧ anyOverlap env now dt w (i :: l) = true) ↔
          (1 < (updateStar env now dt w i).m_collisionTimer.elapsed now ∧
            anyOverlap env now dt (updateStar env now dt w i) l = true) := by
        rw [hm.2.2.1]
        simp only [anyOverlap, Bool.or_eq_true]
        constructor
        · rintro ⟨h1, h2 | h2⟩
          · exact absurd ⟨h2, h1⟩ hc
          · exact ⟨h1, h2⟩
        · rintro ⟨h1, h2⟩
          exact ⟨h1, Or.inr h2⟩
      obtain ⟨ih1, ih2⟩ := ih (updateStar env now dt w i) hplay1
      refine ⟨fun h => ?_, fun h => sameGame_trans hm (ih2 (fun h' => h (hiff.mpr h')))⟩
      obtain ⟨m1, m2, m3, m4, m5⟩ := hm
      obtain ⟨o1, o2, o3, o4⟩ := ih1 (hiff.mp h)
      rw [m1] at o1 o3 o4
      rw [m2, m5, m4] at o4
      rw [m5] at o3
      exact ⟨o1, o2, o3, o4⟩

end StarLoop


section StarFrame

variable {K : Type} [LinearOrderedField K] (env : Env K) (now dt : K)

theorem sameSetup_refl {K : Type} (w : OpenGLWindow K) : SameSetup w w :=
  ⟨rfl, rfl, rfl, rfl, rfl, rfl, rfl, rfl⟩

theorem sameSetup_trans {K : Type} {a b c : OpenGLWindow K} (h1 : SameSetup a b)
    (h2 : SameSetup b c) : SameSetup a c := by
  obtain ⟨a1, a2, a3, a4, a5, a6, a7, a8⟩ := h1
  obtain ⟨b1, b2, b3, b4, b5, b6, b7, b8⟩ := h2
  exact ⟨b1.trans a1, b2.trans a2, b3.trans a3, b4.trans a4, b5.trans a5, b6.trans a6,
    b7.trans a7, b8.trans a8⟩

/-- A registered hit leaves the star arrays and the engine alone. -/
theorem registerHit_stars (w : OpenGLWindow K) :
    (registerHit now w).m_starPositions = w.m_starPositions ∧
      (registerHit now w).m_starRotations = w.m_starRotations ∧
      (registerHit now w).m_randomEngine = w.m_randomEngine := by
  unfold registerHit
  dsimp only
  split_ifs <;> exact ⟨rfl, rfl, rfl⟩

/-- A registered hit leaves the setup fields alone. -/
theorem registerHit_sameSetup (w : OpenGLWindow K) : SameSetup w (registerHit now w) := by
  unfold registerHit SameSetup
  dsimp only
  split_ifs <;> exact ⟨rfl, rfl, rfl, rfl, rfl, rfl, rfl, rfl⟩

/-- The star arrays and the engine after an iteration run while playing. -/
theorem updateStar_stars_playing (w : OpenGLWindow K) (i : Fin m_numStars)
    (hplay : w.isLose = false) :
    (updateStar env now dt w i).m_starPositions
        = Function.update w.m_starPositions i
            (if 1 / 10 < (w.m_starPositions i).z + dt * 15 then drawPosition env w.m_randomEngine
              else ⟨(w.m_starPositions i).x, (w.m_starPositions i).y,
                (w.m_starPositions i).z + dt * 15⟩) ∧
      (updateStar env now dt w i).m_starRotations
        = Function.update w.m_starRotations i
            (if 1 / 10 < (w.m_starPositions i).z + dt * 15 then
              normalize env.inversesqrt (drawAxis env w.m_randomEngine)
              else w.m_starRotations i) ∧
      (updateStar env now dt w i).m_randomEngine
        = (if 1 / 10 < (w.m_starPositions i).z + dt * 15 then w.m_randomEngine + 6
            else w.m_randomEngine) := by
  have hm : (moveStar env dt w i).m_starPositions
        = Function.update w.m_starPositions i
            (if 1 / 10 < (w.m_starPositions i).z + dt * 15 then drawPosition env w.m_randomEngine
              else ⟨(w.m_starPositions i).x, (w.m_starPositions i).y,
                (w.m_starPositions i).z + dt * 15⟩) ∧
      (moveStar env dt w i).m_starRotations
        = Function.update w.m_starRotations i
            (if 1 / 10 < (w.m_starPositions i).z + dt * 15 then
              normalize env.inversesqrt (drawAxis env w.m_randomEngine)
              else w.m_starRotations i) ∧
      (moveStar env dt w i).m_randomEngine
        = (if 1 / 10 < (w.m_starPositions i).z + dt * 15 then w.m_randomEngine + 6
            else w.m_randomEngine) := by
    unfold moveStar
    simp only [hplay, Bool.not_false, if_true, Function.update_same]
    split_ifs with hz <;> simp [randomizeStar]
  rw [updateStar_eq]
  by_cases hc : overlapsAtTurn env dt w i = true ∧ 1 < w.m_collisionTimer.elapsed now
  · rw [if_pos hc]
    obtain ⟨r1, r2, r3⟩ := registerHit_stars now (moveStar env dt w i)
    rw [r1, r2, r3]
    exact hm
  · rw [if_neg hc]
    exact hm

/-- The star arrays and the engine after an iteration run while lost. -/
theorem updateStar_stars_lost (w : OpenGLWindow K) (i : Fin m_numStars)
    (hlost : w.isLose = true) :
    (updateStar env now dt w i).m_starPositions
        = Function.update w.m_starPositions i
            ⟨(w.m_starPositions i).x, (w.m_starPositions i).y, 20⟩ ∧
      (updateStar env now dt w i).m_starRotations = w.m_starRotations ∧
      (updateStar env now dt w i).m_randomEngine = w.m_randomEngine := by
  unfold updateStar
  simp [hlost]

/-- An iteration leaves every other star alone. -/
theorem updateStar_other (w : OpenGLWindow K) (i j : Fin m_numStars) (hne : j ≠ i) :
    (updateStar env now dt w i).m_starPositions j = w.m_starPositions j ∧
      (updateStar env now dt w i).m_starRotations j = w.m_starRotations j := by
  cases h : w.isLose
  · obtain ⟨h1, h2, _⟩ := updateStar_stars_playing env now dt w i h
    rw [h1, h2, Function.update_noteq hne, Function.update_noteq hne]
    exact ⟨rfl, rfl⟩
  · obtain ⟨h1, h2, _⟩ := updateStar_stars_lost env now dt w i h
    rw [h1, h2, Function.update_noteq hne]
    exact ⟨rfl, rfl⟩

/-- The star loop leaves alone every star whose index is not in its list. -/
theorem updateStars_other (l : List (Fin m_numStars)) (w : OpenGLWindow K)
    (j : Fin m_numStars) (hj : j ∉ l) :
    (updateStars env now dt w l).m_starPositions j = w.m_starPositions j ∧
      (updateStars env now dt w l).m_starRotations j = w.m_starRotations j := by
  induction l generalizing w with
  | nil => exact ⟨rfl, rfl⟩
  | cons i l ih =>
    have hne : j ≠ i := fun h => hj (h ▸ List.mem_cons_self _ _)
    have hnl : j ∉ l := fun h => hj (List.mem_cons_of_mem _ h)
    obtain ⟨a1, a2⟩ := ih (updateStar env now dt w i) hnl
    obtain ⟨b1, b2⟩ := updateStar_other env now dt w i j hne
    exact ⟨a1.trans b1, a2.trans b2⟩

/-- An iteration of the star loop leaves the setup fields alone. -/
theorem updateStar_sameSetup (w : OpenGLWindow K) (i : Fin m_numStars) :
    SameSetup w (updateStar env now dt w i) := by
  have hm : SameSetup w (moveStar env dt w i) := by
    unfold moveStar SameSetup
    cases h : w.isLose <;> simp [h]
    split_ifs <;> simp [randomizeStar]
  rw [updateStar_eq]
  split_ifs
  · exact sameSetup_trans hm (registerHit_sameSetup now _)
  · exact hm

/-- The star loop leaves the setup fields alone. -/
theorem updateStars_sameSetup (l : List (Fin m_numStars)) (w : OpenGLWindow K) :
    SameSetup w (updateStars env now dt w l) := by
  induction l generalizing w with
  | nil => exact sameSetup_refl w
  | cons i l ih => exact sameSetup_trans (updateStar_sameSetup env now dt w i) (ih _)

/-- Once lost, the game stays lost through the star loop. -/
theorem updateStars_playing_of_end (l : List (Fin m_numStars)) (w : OpenGLWindow K)
    (hend : (updateStars env now dt w l).isLose = false) : w.isLose = false := by
  cases h : w.isLose
  · rfl
  · have hs := updateStars_sameGame env now dt l w (Or.inl h)
    rw [hs.2.1, h] at hend
    exact hend

/-- What an iteration run while playing makes of its own star. -/
theorem updateStar_rule (w : OpenGLWindow K) (i : Fin m_numStars) (hplay : w.isLose = false)
    (hdt : 0 ≤ dt) :
    StarRule env dt (w.m_starPositions i) (w.m_starRotations i)
      ((updateStar env now dt w i).m_starPositions i)
      ((updateStar env now dt w i).m_starRotations i) := by
  obtain ⟨h1, h2, _⟩ := updateStar_stars_playing env now dt w i hplay
  rw [h1, h2, Function.update_same, Function.update_same]
  refine ⟨fun hz => ⟨w.m_randomEngine, ?_, ?_⟩, fun hz => ⟨?_, ?_, ?_⟩⟩
  · rw [if_pos hz]
  · rw [if_pos hz]
  · rw [if_neg hz]
  · rw [if_neg hz]
  · rw [if_neg hz]
    have : 0 ≤ dt * 15 := mul_nonneg hdt (by norm_num)
    simp only
    linarith

/-- What a tick that ends while playing makes of each star its loop visits once. -/
theorem updateStars_rule (l : List (Fin m_numStars)) (hnd : l.Nodup) (w : OpenGLWindow K)
    (hdt : 0 ≤ dt) (hend : (updateStars env now dt w l).isLose = false)
    (i : Fin m_numStars) (hi : i ∈ l) :
    StarRule env dt (w.m_starPositions i) (w.m_starRotations i)
      ((updateStars env now dt w l).m_starPositions i)
      ((updateStars env now dt w l).m_starRotations i) := by
  induction l generalizing w with
  | nil => exact absurd hi (List.not_mem_nil i)
  | cons k l ih =>
    have hstep : updateStars env now dt w (k :: l)
        = updateStars env now dt (updateStar env now dt w k) l := rfl
    rw [hstep] at hend ⊢
    have hplay1 := updateStars_playing_of_end env now dt l _ hend
    have hplay : w.isLose = false := by
      cases h : w.isLose
      · rfl
      · have hs := updateStar_sameGame env now dt w k (Or.inl h)
        rw [hs.2.1, h] at hplay1
        exact hplay1
    obtain ⟨hk, hndl⟩ := List.nodup_cons.mp hnd
    by_cases hik : i = k
    · subst hik
      obtain ⟨a1, a2⟩ := updateStars_other env now dt l (updateStar env now dt w i) i hk
      rw [a1, a2]
      exact updateStar_rule env now dt w i hplay hdt
    · have hil : i ∈ l := by
        rcases List.mem_cons.mp hi with h | h
        · exact absurd h hik
        · exact h
      obtain ⟨b1, b2⟩ := updateStar_other env now dt w k i hik
      have := ih hndl (updateStar env now dt w k) hend hil
      rw [b1, b2] at this
      exact this

end StarFrame


/-! ## Initialisation and restart -/

/-- The program loop of `initializeGL()` appends the six compiled programs. -/
theorem pushPrograms_eq {K : Type} (w : OpenGLWindow K) :
    createPrograms w =
      { w with
        glPrograms := w.glPrograms + 6
        m_programs := w.m_programs ++ compiledPrograms w.glPrograms } := by
  simp [createPrograms, m_shaderNames, pushProgram, compiledPrograms, List.append_assoc]

/-- What `loadModel` returns when it returns. -/
theorem loadModel_spec {K : Type} (env : Env K) (path_obj path_text : String)
    (w : OpenGLWindow K) (model m : Model)
    (h : loadModel env path_obj path_text w model = some m) :
    m.uvMapped = env.hasUV path_obj ∧
      m.vao = vectorAt w.m_programs w.m_currentProgramIndex := by
  unfold loadModel at h
  cases hv : vectorAt w.m_programs w.m_currentProgramIndex with
  | none => simp [hv] at h
  | some p =>
    simp only [hv, Option.map_some', Option.some.injEq] at h
    subst h
    exact ⟨rfl, rfl⟩

/-- What the "Load model" block returns when it returns. -/
theorem loadStar_spec {K : Type} (env : Env K) (w w1 : OpenGLWindow K) (h : loadStar env w = some w1) :
    SameGame w w1 ∧ w1.m_programs = w.m_programs ∧
      w1.m_currentProgramIndex = w.m_currentProgramIndex ∧
      w1.shaderComboIndex = w.shaderComboIndex ∧ w1.m_mappingMode = 3 ∧
      w1.m_star.uvMapped = env.hasUV "Mercury.obj" ∧
      w1.m_star.vao = vectorAt w.m_programs w.m_currentProgramIndex ∧
      w1.m_randomEngine = w.m_randomEngine := by
  unfold loadStar at h
  rw [Option.map_eq_some'] at h
  obtain ⟨star, hstar, h⟩ := h
  obtain ⟨s1, s2⟩ := loadModel_spec env _ _ _ _ _ hstar
  subst h
  exact ⟨⟨rfl, rfl, rfl, rfl, rfl⟩, rfl, rfl, rfl, rfl, s1, s2, rfl⟩

/-- The fields `initializeSkybox` leaves alone. -/
theorem initializeSkybox_spec {K : Type} (w : OpenGLWindow K) :
    SameGame w (initializeSkybox w) ∧ (initializeSkybox w).m_programs = w.m_programs ∧
      (initializeSkybox w).m_currentProgramIndex = w.m_currentProgramIndex ∧
      (initializeSkybox w).shaderComboIndex = w.shaderComboIndex ∧
      (initializeSkybox w).m_mappingMode = w.m_mappingMode ∧
      (initializeSkybox w).m_star = w.m_star ∧ (initializeSkybox w).m_ship = w.m_ship ∧
      (initializeSkybox w).m_starPositions = w.m_starPositions ∧
      (initializeSkybox w).m_starRotations = w.m_starRotations :=
  ⟨⟨rfl, rfl, rfl, rfl, rfl⟩, rfl, rfl, rfl, rfl, rfl, rfl, rfl, rfl⟩

/-- The program list and the game fields after the "Create programs" loop. -/
theorem createPrograms_spec {K : Type} (w : OpenGLWindow K) :
    SameGame w (createPrograms w) ∧
      (createPrograms w).m_programs = w.m_programs ++ compiledPrograms w.glPrograms ∧
      (createPrograms w).m_currentProgramIndex = w.m_currentProgramIndex ∧
      (createPrograms w).shaderComboIndex = w.shaderComboIndex ∧
      (createPrograms w).m_randomEngine = w.m_randomEngine := by
  rw [pushPrograms_eq]
  exact ⟨⟨rfl, rfl, rfl, rfl, rfl⟩, rfl, rfl, rfl, rfl⟩

section Init

variable {K : Type} [LinearOrderedField K] (env : Env K)

/-- The "Setup stars" loop writes only the star arrays and the engine. -/
theorem setupStars_frame (l : List (Fin m_numStars)) (w : OpenGLWindow K) :
    SameGame w (setupStars env w l) ∧ SameSetup w (setupStars env w l) := by
  induction l generalizing w with
  | nil => exact ⟨sameGame_refl w, sameSetup_refl w⟩
  | cons i l ih =>
    obtain ⟨h1, h2⟩ := ih (randomizeStar env i w)
    have g1 : SameGame w (randomizeStar env i w) := ⟨rfl, rfl, rfl, rfl, rfl⟩
    have g2 : SameSetup w (randomizeStar env i w) := ⟨rfl, rfl, rfl, rfl, rfl, rfl, rfl, rfl⟩
    exact ⟨sameGame_trans g1 h1, sameSetup_trans g2 h2⟩

/-- The "Setup stars" loop leaves alone every star whose index is not in its list. -/
theorem setupStars_other (l : List (Fin m_numStars)) (w : OpenGLWindow K)
    (j : Fin m_numStars) (hj : j ∉ l) :
    (setupStars env w l).m_starPositions j = w.m_starPositions j ∧
      (setupStars env w l).m_starRotations j = w.m_starRotations j := by
  induction l generalizing w with
  | nil => exact ⟨rfl, rfl⟩
  | cons i l ih =>
    have hne : j ≠ i := fun h => hj (h ▸ List.mem_cons_self _ _)
    have hnl : j ∉ l := fun h => hj (List.mem_cons_of_mem _ h)
    obtain ⟨a1, a2⟩ := ih (randomizeStar env i w) hnl
    refine ⟨a1.trans ?_, a2.trans ?_⟩
    · simp [randomizeStar, Function.update_noteq hne]
    · simp [randomizeStar, Function.update_noteq hne]

/-- The "Setup stars" loop gives freshly drawn values to every star in its list,
drawn with the engine a multiple of six draws further. -/
theorem setupStars_star (l : List (Fin m_numStars)) (w : OpenGLWindow K)
    (j : Fin m_numStars) (hj : j ∈ l) :
    ∃ k : Nat, (setupStars env w l).m_starPositions j
        = drawPosition env (w.m_randomEngine + 6 * k) ∧
      (setupStars env w l).m_starRotations j
        = normalize env.inversesqrt (drawAxis env (w.m_randomEngine + 6 * k)) := by
  induction l generalizing w with
  | nil => exact absurd hj (List.not_mem_nil j)
  | cons i l ih =>
    by_cases hjl : j ∈ l
    · obtain ⟨k, h1, h2⟩ := ih (randomizeStar env i w) hjl
      have he : (randomizeStar env i w).m_randomEngine + 6 * k
          = w.m_randomEngine + 6 * (k + 1) := by
        simp only [randomizeStar]
        ring
      rw [he] at h1 h2
      exact ⟨k + 1, h1, h2⟩
    · have hji : j = i := by
        rcases List.mem_cons.mp hj with h | h
        · exact h
        · exact absurd h hjl
      obtain ⟨a1, a2⟩ := setupStars_other env l (randomizeStar env i w) j hjl
      refine ⟨0, a1.trans ?_, a2.trans ?_⟩
      · simp [randomizeStar, hji]
      · simp [randomizeStar, hji]

/-- What the ship block returns when it returns. -/
theorem loadShip_spec (w w2 : OpenGLWindow K) (h : loadShip env w = some w2) :
    w2.cont_collisions = 5 ∧ w2.m_shipPosition = ⟨0, 0, -(1 / 10)⟩ ∧ w2.isLose = w.isLose ∧
      w2.m_collisionTimer = w.m_collisionTimer ∧
      w2.m_restartWaitTimer = w.m_restartWaitTimer ∧ w2.m_programs = w.m_programs ∧
      w2.m_currentProgramIndex = w.m_currentProgramIndex ∧
      w2.shaderComboIndex = w.shaderComboIndex ∧ w2.m_mappingMode = w.m_mappingMode ∧
      w2.m_star = w.m_star ∧ w2.m_starPositions = w.m_starPositions ∧
      w2.m_starRotations = w.m_starRotations ∧
      w2.m_ship.vao = vectorAt w.m_programs w.m_currentProgramIndex := by
  unfold loadShip at h
  rw [Option.map_eq_some'] at h
  obtain ⟨ship, hship, h⟩ := h
  obtain ⟨-, s2⟩ := loadModel_spec env _ _ _ _ _ hship
  subst h
  exact ⟨rfl, rfl, rfl, rfl, rfl, rfl, rfl, rfl, rfl, rfl, rfl, rfl, s2⟩

/-- The outcome of `initializeGL()` whenever it returns. -/
theorem initializeGL_spec (w w' : OpenGLWindow K) (h : initializeGL env w = some w') :
    InitOutcome env w w' := by
  unfold initializeGL at h
  rw [Option.bind_eq_some] at h
  obtain ⟨w1, h1, h⟩ := h
  rw [Option.map_eq_some'] at h
  obtain ⟨w2, h2, h⟩ := h
  obtain ⟨⟨p1, p2, p3, p4, p5⟩, p6, p7, p8, p9⟩ := createPrograms_spec w
  obtain ⟨⟨q1, q2, q3, q4, q5⟩, q6, q7, q8, q9, q10, q11, q12⟩ := loadStar_spec env _ _ h1
  obtain ⟨⟨a1, a2, a3, a4, a5⟩, b1, b2, b3, b4, b5, b6, b7, b8⟩ :=
    setupStars_frame env (List.finRange m_numStars) w1
  obtain ⟨r1, r2, r3, r4, r5, r6, r7, r8, r9, r10, r11, r12, r13⟩ := loadShip_spec env _ _ h2
  obtain ⟨⟨t1, t2, t3, t4, t5⟩, t6, t7, t8, t9, t10, t11, t12, t13⟩ := initializeSkybox_spec w2
  have hst := fun i => setupStars_star env (List.finRange m_numStars) w1 i (List.mem_finRange i)
  subst h
  have hprog : (initializeSkybox w2).m_programs
      = w.m_programs ++ compiledPrograms w.glPrograms := by
    rw [t6, r6, b3, q6, p6]
  have hidx : (initializeSkybox w2).m_currentProgramIndex = w.m_currentProgramIndex := by
    rw [t7, r7, b4, q7, p7]
  exact
    { lives := t1.trans r1
      ship := t5.trans r2
      mode := by rw [t9, r9, b5, q9]
      lose := by rw [t2, r3, a2, q2, p2]
      index := hidx
      combo := by rw [t8, r8, b7, q8, p8]
      programs := hprog
      collisionTimer := by rw [t3, r4, a3, q3, p3]
      restartTimer := by rw [t4, r5, a4, q4, p4]
      starUV := by rw [t10, r10, b1, q10]
      starVAO := by rw [t10, r10, b1, q11, hprog, hidx, p6, p7]
      shipVAO := by rw [t11, r13, b3, b4, hprog, hidx, q6, q7, p6, p7]
      stars := fun i => by
        obtain ⟨k, e1, e2⟩ := hst i
        rw [q12, p9] at e1 e2
        exact ⟨k, by rw [t12, r11, e1], by rw [t13, r12, e2]⟩ }

/-- When `initializeGL()` returns: the active program index must be a valid index
of the program list once the six new programs are appended. -/
theorem initializeGL_isSome (w : OpenGLWindow K) (h0 : 0 ≤ w.m_currentProgramIndex)
    (h1 : w.m_currentProgramIndex < w.m_programs.length + 6) :
    ∃ w', initializeGL env w = some w' := by
  have hv : ∃ p, vectorAt (w.m_programs ++ compiledPrograms w.glPrograms)
      w.m_currentProgramIndex = some p := by
    unfold vectorAt
    rw [if_pos h0]
    have hlt : w.m_currentProgramIndex.toNat
        < (w.m_programs ++ compiledPrograms w.glPrograms).length := by
      simp only [List.length_append, compiledPrograms, List.length_cons, List.length_nil]
      omega
    exact ⟨_, List.getElem?_eq_getElem hlt⟩
  obtain ⟨p, hp⟩ := hv
  obtain ⟨-, p6, p7, -, -⟩ := createPrograms_spec w
  have e1 : ∃ w1, loadStar env (createPrograms w) = some w1 := by
    unfold loadStar loadModel
    rw [p6, p7, hp]
    exact ⟨_, rfl⟩
  obtain ⟨w1, hw1⟩ := e1
  obtain ⟨-, q6, q7, -⟩ := loadStar_spec env _ _ hw1
  obtain ⟨-, b1, b2, b3, b4, -⟩ := setupStars_frame env (List.finRange m_numStars) w1
  have e2 : ∃ w2, loadShip env (setupStars env w1 (List.finRange m_numStars)) = some w2 := by
    unfold loadShip loadModel
    rw [b3, b4, q6, q7, p6, p7, hp]
    exact ⟨_, rfl⟩
  obtain ⟨w2, hw2⟩ := e2
  unfold initializeGL
  rw [hw1, Option.some_bind, hw2]
  exact ⟨_, rfl⟩

end Init
/-! ## The combo boxes of `paintUI()` -/

/-- The loop of a combo box keeps the current entry or selects one of its entries. -/
theorem comboLoop_range (isOpen : Bool) (selectable : Nat → Bool) (size current : Nat) :
    comboLoop isOpen selectable size current = current ∨
      comboLoop isOpen selectable size current < size := by
  unfold comboLoop
  cases isOpen
  · exact Or.inl rfl
  · simp only [if_true]
    have key : ∀ (l : List Nat) (cur : Nat), (∀ x ∈ l, x < size) →
        l.foldl (fun cur index => if selectable index then index else cur) cur = cur ∨
          l.foldl (fun cur index => if selectable index then index else cur) cur < size := by
      intro l
      induction l with
      | nil => intro cur _; exact Or.inl rfl
      | cons a l ih =>
        intro cur hl
        have ha : a < size := hl a (List.mem_cons_self _ _)
        have hl' : ∀ x ∈ l, x < size := fun x hx => hl x (List.mem_cons_of_mem _ hx)
        simp only [List.foldl_cons]
        by_cases hs : selectable a = true
        · rw [if_pos hs]
          rcases ih a hl' with h | h
          · right; rw [h]; exact ha
          · right; exact h
        · rw [if_neg hs]
          exact ih cur hl'
    exact key _ _ (fun x hx => List.mem_range.mp hx)

/-- The loop of the UV-mapping combo keeps the mode or selects one of its entries. -/
theorem mappingLoop_range (selectable : Nat → Bool) (size : Nat) (mode : Int) :
    (List.range size).foldl
        (fun mode index => if selectable index then (index : Int) else mode) mode = mode ∨
      (0 ≤ (List.range size).foldl
        (fun mode index => if selectable index then (index : Int) else mode) mode ∧
       (List.range size).foldl
        (fun mode index => if selectable index then (index : Int) else mode) mode < size) := by
  have key : ∀ (l : List Nat) (m : Int), (∀ x ∈ l, x < size) →
      l.foldl (fun mode index => if selectable index then (index : Int) else mode) m = m ∨
        (0 ≤ l.foldl (fun mode index => if selectable index then (index : Int) else mode) m ∧
          l.foldl (fun mode index => if selectable index then (index : Int) else mode) m
            < size) := by
    intro l
    induction l with
    | nil => intro m _; exact Or.inl rfl
    | cons a l ih =>
      intro m hl
      have ha : a < size := hl a (List.mem_cons_self _ _)
      have hl' : ∀ x ∈ l, x < size := fun x hx => hl x (List.mem_cons_of_mem _ hx)
      simp only [List.foldl_cons]
      by_cases hs : selectable a = true
      · rw [if_pos hs]
        rcases ih (a : Int) hl' with h | h
        · right
          rw [h]
          exact ⟨Int.natCast_nonneg a, by exact_mod_cast ha⟩
        · right; exact h
      · rw [if_neg hs]
        exact ih m hl'
  exact key _ _ (fun x hx => List.mem_range.mp hx)

/-- A program list whose first six entries are the cold-start programs has an
entry at every index below six. -/
theorem programs_at {K : Type} (w : OpenGLWindow K)
    (hp : w.m_programs.take 6 = compiledPrograms 0) (n : Nat) (hn : n < 6) :
    ∃ p, vectorAt w.m_programs (n : Int) = some p := by
  have hlen : 6 ≤ w.m_programs.length := by
    have := congrArg List.length hp
    simp only [List.length_take, compiledPrograms, List.length_cons, List.length_nil] at this
    omega
  unfold vectorAt
  rw [if_pos (Int.natCast_nonneg n), Int.toNat_natCast]
  exact ⟨_, List.getElem?_eq_getElem (by omega)⟩

section UI

variable {K : Type} (env : Env K)

/-- The shader block of `paintUI()` in a state that satisfies the UI invariant:
it returns, with the selection made active and both models set up against the
newly active program exactly when the selection differs from the active index. -/
theorem paintShaderCombo_spec (ui : UIFrame) (w : OpenGLWindow K) (hinv : UIInv env w) :
    ∃ w1, paintShaderCombo ui w = some w1 ∧
      w1.shaderComboIndex = comboLoop ui.shaderComboOpen ui.shaderSelectable
        m_shaderNames.length w.shaderComboIndex ∧
      w1.shaderComboIndex < 6 ∧
      w1.m_currentProgramIndex = (w1.shaderComboIndex : Int) ∧
      ((w1.shaderComboIndex : Int) ≠ w.m_currentProgramIndex →
        ∃ p, vectorAt w.m_programs w1.m_currentProgramIndex = some p ∧
          w1.m_star = w.m_star.setupVAO p ∧ w1.m_ship = w.m_ship.setupVAO p) ∧
      ((w1.shaderComboIndex : Int) = w.m_currentProgramIndex →
        w1.m_star = w.m_star ∧ w1.m_ship = w.m_ship) ∧
      w1.m_programs = w.m_programs ∧ SameGame w w1 ∧
      w1.m_starPositions = w.m_starPositions ∧ w1.m_starRotations = w.m_starRotations ∧
      w1.m_mappingMode = w.m_mappingMode ∧ w1.m_star.uvMapped = w.m_star.uvMapped := by
  obtain ⟨i1, i2, i3, i4, i5, i6⟩ := hinv
  have hname : ∃ name, m_shaderNames[w.shaderComboIndex]? = some name :=
    ⟨_, List.getElem?_eq_getElem (by simpa [m_shaderNames] using i3)⟩
  obtain ⟨name, hname⟩ := hname
  have hsel := comboLoop_range ui.shaderComboOpen ui.shaderSelectable m_shaderNames.length
    w.shaderComboIndex
  have hsel6 : comboLoop ui.shaderComboOpen ui.shaderSelectable m_shaderNames.length
      w.shaderComboIndex < 6 := by
    rcases hsel with h | h
    · rw [h]; exact i3
    · simpa [m_shaderNames] using h
  unfold paintShaderCombo
  rw [hname, Option.some_bind]
  generalize comboLoop ui.shaderComboOpen ui.shaderSelectable m_shaderNames.length
      w.shaderComboIndex = sel at hsel6
  obtain ⟨p, hp⟩ := programs_at w i1 sel hsel6
  dsimp only
  by_cases hne : (sel : Int) ≠ w.m_currentProgramIndex
  · rw [if_pos hne, hp]
    simp only [Option.some_bind]
    exact ⟨_, rfl, rfl, hsel6, rfl, fun _ => ⟨p, hp, rfl, rfl⟩, fun h => absurd h hne, rfl,
      ⟨rfl, rfl, rfl, rfl, rfl⟩, rfl, rfl, rfl, rfl⟩
  · rw [if_neg hne]
    exact ⟨_, rfl, rfl, hsel6, (not_not.mp hne).symm, fun h => absurd h hne,
      fun _ => ⟨rfl, rfl⟩, rfl, ⟨rfl, rfl, rfl, rfl, rfl⟩, rfl, rfl, rfl, rfl⟩

/-- The entries of the UV-mapping combo box: three, and a fourth one exactly for
a mesh with texture coordinates. -/
theorem comboItems_length (w : OpenGLWindow K) :
    (comboItems w).length = if w.m_star.uvMapped = true then 4 else 3 := by
  unfold comboItems Model.isUVMapped
  cases w.m_star.uvMapped <;> rfl

/-- The UV-mapping block of `paintUI()`, whenever it returns from a mode between
0 and 3: the mode stays between 0 and 3 and nothing else changes. -/
theorem paintMappingCombo_outcome (ui : UIFrame) (w1 w2 : OpenGLWindow K)
    (h : paintMappingCombo ui w1 = some w2) (h0 : 0 ≤ w1.m_mappingMode)
    (h3 : w1.m_mappingMode ≤ 3) :
    0 ≤ w2.m_mappingMode ∧ w2.m_mappingMode ≤ 3 ∧
      w2.shaderComboIndex = w1.shaderComboIndex ∧
      w2.m_currentProgramIndex = w1.m_currentProgramIndex ∧ w2.m_star = w1.m_star ∧
      w2.m_ship = w1.m_ship ∧ w2.m_programs = w1.m_programs ∧ SameGame w1 w2 ∧
      w2.m_starPositions = w1.m_starPositions ∧ w2.m_starRotations = w1.m_starRotations := by
  unfold paintMappingCombo at h
  rw [Option.bind_eq_some] at h
  obtain ⟨item, -, h⟩ := h
  have hlen : (comboItems w1).length ≤ 4 := by
    rw [comboItems_length]
    split_ifs <;> omega
  cases hopen : ui.mappingComboOpen
  · rw [hopen] at h
    simp only [Bool.false_eq_true, if_false, Option.some.injEq] at h
    subst h
    exact ⟨h0, h3, rfl, rfl, rfl, rfl, rfl, sameGame_refl _, rfl, rfl⟩
  · rw [hopen] at h
    simp only [if_true, Option.some.injEq] at h
    subst h
    refine ⟨?_, ?_, rfl, rfl, rfl, rfl, rfl, ⟨rfl, rfl, rfl, rfl, rfl⟩, rfl, rfl⟩
    · dsimp only
      rcases mappingLoop_range ui.mappingSelectable (comboItems w1).length w1.m_mappingMode
        with h | h
      · rw [h]; exact h0
      · exact h.1
    · dsimp only
      rcases mappingLoop_range ui.mappingSelectable (comboItems w1).length w1.m_mappingMode
        with h | h
      · rw [h]; exact h3
      · have := h.2
        omega

/-- The UV-mapping block of `paintUI()` returns from a mode between 0 and 3 when
the obstacle mesh has texture coordinates. -/
theorem paintMappingCombo_isSome (ui : UIFrame) (w1 : OpenGLWindow K)
    (h0 : 0 ≤ w1.m_mappingMode) (h3 : w1.m_mappingMode ≤ 3)
    (huv : w1.m_star.uvMapped = true) :
    ∃ w2, paintMappingCombo ui w1 = some w2 := by
  have hat : ∃ item, vectorAt (comboItems w1) w1.m_mappingMode = some item := by
    unfold vectorAt
    rw [if_pos h0]
    refine ⟨_, List.getElem?_eq_getElem ?_⟩
    rw [comboItems_length, if_pos huv]
    omega
  obtain ⟨item, hitem⟩ := hat
  unfold paintMappingCombo
  rw [hitem, Option.some_bind]
  cases ui.mappingComboOpen
  · exact ⟨_, rfl⟩
  · exact ⟨_, rfl⟩

/-- The outcome of a `paintUI()` frame, whenever it returns, in a state that
satisfies the UI invariant. -/
theorem paintUI_outcome (ui : UIFrame) (w w' : OpenGLWindow K) (hinv : UIInv env w)
    (h : paintUI ui w = some w') : PaintOutcome ui w w' ∧ UIInv env w' := by
  obtain ⟨w1, hw1, c1, c2, c3, c4, c5, c6, c7, c8, c9, c10, c11⟩ :=
    paintShaderCombo_spec env ui w hinv
  obtain ⟨i1, i2, i3, i4, i5, i6⟩ := hinv
  unfold paintUI at h
  rw [hw1, Option.some_bind] at h
  obtain ⟨d1, d2, d3, d4, d5, d6, d7, d8, d9, d10⟩ :=
    paintMappingCombo_outcome ui w1 w' h (c10 ▸ i4) (c10 ▸ i5)
  refine ⟨?_, ?_, ?_, ?_, d1, d2, ?_⟩
  · exact
      { combo := d3.trans c1
        index := by rw [d4, d3, c3]
        rebuilt := fun hne => by
          rw [d3] at hne
          rw [d4, d5, d6]
          exact c4 hne
        kept := fun he => by
          rw [d3] at he
          rw [d5, d6]
          exact c5 he
        programs := d7.trans c6
        game := sameGame_trans c7 d8
        positions := d9.trans c8
        rotations := d10.trans c9
        modeLow := d1
        modeHigh := d2 }
  · rw [d7, c6]; exact i1
  · rw [d4, d3, c3]
  · rw [d3]; exact c2
  · rw [d5, c11]; exact i6

/-- A `paintUI()` frame returns in every state that satisfies the UI invariant,
for an obstacle mesh with texture coordinates. -/
theorem paintUI_isSome (ui : UIFrame) (w : OpenGLWindow K) (hinv : UIInv env w)
    (huv : env.hasUV "Mercury.obj" = true) : ∃ w', paintUI ui w = some w' := by
  obtain ⟨w1, hw1, c1, c2, c3, c4, c5, c6, c7, c8, c9, c10, c11⟩ :=
    paintShaderCombo_spec env ui w hinv
  obtain ⟨i1, i2, i3, i4, i5, i6⟩ := hinv
  obtain ⟨w2, hw2⟩ := paintMappingCombo_isSome ui w1 (c10 ▸ i4) (c10 ▸ i5)
    (by rw [c11, i6, huv])
  exact ⟨w2, by unfold paintUI; rw [hw1, Option.some_bind, hw2]⟩

end UI


/-! ## Invariants of the reachable states -/

/-- A key event moves only the ship. -/
theorem handleEvent_spec {K : Type} [LinearOrderedField K] (ev : SDL_Event) (dt : K)
    (w : OpenGLWindow K) :
    SameSetup w (handleEvent ev dt w) ∧
      (handleEvent ev dt w).isLose = w.isLose ∧
      (handleEvent ev dt w).cont_collisions = w.cont_collisions ∧
      (handleEvent ev dt w).m_starPositions = w.m_starPositions ∧
      (handleEvent ev dt w).m_starRotations = w.m_starRotations := by
  unfold handleEvent
  cases ev.keyDown
  · exact ⟨sameSetup_refl w, rfl, rfl, rfl, rfl⟩
  · exact ⟨⟨rfl, rfl, rfl, rfl, rfl, rfl, rfl, rfl⟩, rfl, rfl, rfl, rfl⟩

/-- The UI invariant only reads setup fields. -/
theorem uiInv_of_sameSetup {K : Type} (env : Env K) {w w' : OpenGLWindow K}
    (hs : SameSetup w w') (h : UIInv env w) : UIInv env w' := by
  obtain ⟨b1, b2, b3, b4, b5, b6, b7, b8⟩ := hs
  obtain ⟨i1, i2, i3, i4, i5, i6⟩ := h
  unfold UIInv
  rw [b1, b3, b4, b5, b7]
  exact ⟨i1, i2, i3, i4, i5, i6⟩

section Reach

variable {K : Type} [LinearOrderedField K] (env : Env K)

/-- The UI invariant holds after `initializeGL()` on a window that satisfies it or
that is fresh. -/
theorem initializeGL_uiInv (w w' : OpenGLWindow K) (h : initializeGL env w = some w')
    (hw : w.m_programs = [] ∧ w.glPrograms = 0 ∨ w.m_programs.take 6 = compiledPrograms 0)
    (hidx : w.m_currentProgramIndex = (w.shaderComboIndex : Int)) (hc : w.shaderComboIndex < 6) :
    UIInv env w' := by
  have o := initializeGL_spec env w w' h
  refine ⟨?_, ?_, ?_, ?_, ?_, o.starUV⟩
  · rw [o.programs]
    rcases hw with ⟨h1, h2⟩ | h1
    · rw [h1, h2]
      rfl
    · have hlen : 6 ≤ w.m_programs.length := by
        have := congrArg List.length h1
        simp only [List.length_take, compiledPrograms, List.length_cons, List.length_nil] at this
        omega
      rw [List.take_append_of_le_length hlen]
      exact h1
  · rw [o.index, o.combo]
    exact hidx
  · rw [o.combo]
    exact hc
  · rw [o.mode]
    norm_num
  · rw [o.mode]

/-- The UI invariant holds in every reachable state. -/
theorem reachable_uiInv (w : OpenGLWindow K) (h : Reachable env w) : UIInv env w := by
  induction h with
  | init w hc =>
    obtain ⟨tc, tr, pos, rot, hinit⟩ := hc
    exact initializeGL_uiInv env _ w hinit (Or.inl ⟨rfl, rfl⟩) rfl (Nat.succ_pos 5)
  | step w w' _ hstep ih =>
    rcases hstep with ⟨now, dt, _, hu⟩ | ⟨ui, hp⟩ | ⟨ev, dt, he⟩
    · unfold update at hu
      split_ifs at hu
      · obtain ⟨i1, i2, i3, i4, i5, i6⟩ := ih
        exact initializeGL_uiInv env _ w' hu (Or.inr i1) i2 i3
      · simp only [Option.some.injEq] at hu
        subst hu
        exact uiInv_of_sameSetup env
          (updateStars_sameSetup env now dt (List.finRange m_numStars) w) ih
    · exact (paintUI_outcome env ui w w' ih hp).2
    · subst he
      exact uiInv_of_sameSetup env (handleEvent_spec ev dt w).1 ih

/-- A freshly drawn position lies in the spawn box when the draws are in range. -/
theorem drawPosition_inSpawnBox (hr : DrawsInRange env) (e : Nat) :
    InSpawnBox (drawPosition env e) := by
  unfold InSpawnBox drawPosition
  exact ⟨hr e (-30) 30 (by norm_num), hr (e + 1) (-30) 30 (by norm_num),
    hr (e + 2) (-100) (-30) (by norm_num)⟩

/-- One iteration of the star loop keeps the depth range. -/
theorem updateStar_depthOK (hr : DrawsInRange env) (now dt : K) (hdt : 0 ≤ dt)
    (w : OpenGLWindow K) (i : Fin m_numStars) (h : DepthOK w) :
    DepthOK (updateStar env now dt w i) := by
  intro hplay' j
  have hplay : w.isLose = false := by
    cases hl : w.isLose
    · rfl
    · have hs := updateStar_sameGame env now dt w i (Or.inl hl)
      rw [hs.2.1, hl] at hplay'
      exact hplay'
  obtain ⟨h1, -, -⟩ := updateStar_stars_playing env now dt w i hplay
  rw [h1]
  by_cases hji : j = i
  · subst hji
    rw [Function.update_same]
    by_cases hz : 1 / 10 < (w.m_starPositions j).z + dt * 15
    · rw [if_pos hz]
      obtain ⟨-, -, hz1, hz2⟩ := drawPosition_inSpawnBox env hr w.m_randomEngine
      exact ⟨hz1, by linarith⟩
    · rw [if_neg hz]
      have := (h hplay j).1
      have hd : 0 ≤ dt * 15 := mul_nonneg hdt (by norm_num)
      exact ⟨by simp only; linarith, not_lt.mp hz⟩
  · rw [Function.update_noteq hji]
    exact h hplay j

/-- The star loop keeps the depth range. -/
theorem updateStars_depthOK (hr : DrawsInRange env) (now dt : K) (hdt : 0 ≤ dt)
    (l : List (Fin m_numStars)) (w : OpenGLWindow K) (h : DepthOK w) :
    DepthOK (updateStars env now dt w l) := by
  induction l generalizing w with
  | nil => exact h
  | cons i l ih => exact ih _ (updateStar_depthOK env hr now dt hdt w i h)

/-- After `initializeGL()` every star lies in the spawn box. -/
theorem initializeGL_spawnBox (hr : DrawsInRange env) (w w' : OpenGLWindow K)
    (h : initializeGL env w = some w') (i : Fin m_numStars) :
    InSpawnBox (w'.m_starPositions i) := by
  obtain ⟨k, he, -⟩ := (initializeGL_spec env w w' h).stars i
  rw [he]
  exact drawPosition_inSpawnBox env hr _

/-- Stars in the spawn box are in the depth range. -/
theorem depthOK_of_spawnBox (w : OpenGLWindow K)
    (h : ∀ i, InSpawnBox (w.m_starPositions i)) : DepthOK w := by
  intro _ i
  obtain ⟨-, -, h1, h2⟩ := h i
  exact ⟨h1, by linarith⟩

/-- The depth range holds in every reachable state, when the draws are in range. -/
theorem reachable_depthOK (hr : DrawsInRange env) (w : OpenGLWindow K)
    (h : Reachable env w) : DepthOK w := by
  induction h with
  | init w hc =>
    obtain ⟨tc, tr, pos, rot, hinit⟩ := hc
    exact depthOK_of_spawnBox w (initializeGL_spawnBox env hr _ w hinit)
  | step w w' hw hstep ih =>
    rcases hstep with ⟨now, dt, hdt, hu⟩ | ⟨ui, hp⟩ | ⟨ev, dt, he⟩
    · unfold update at hu
      split_ifs at hu
      · exact depthOK_of_spawnBox w' (initializeGL_spawnBox env hr _ w' hu)
      · simp only [Option.some.injEq] at hu
        subst hu
        exact updateStars_depthOK env hr now dt hdt _ w ih
    · obtain ⟨o, -⟩ := paintUI_outcome env ui w w' (reachable_uiInv env w hw) hp
      intro hplay i
      rw [o.positions]
      exact ih (o.game.2.1 ▸ hplay) i
    · subst he
      obtain ⟨-, e1, -, e2, -⟩ := handleEvent_spec ev dt w
      intro hplay i
      rw [e2]
      exact ih (e1 ▸ hplay) i

end Reach


/-! ## Ticks in which the first star reaches the ship -/

/-- The star loop starts with the first star and does not come back to it. -/
theorem finRange_head :
    ∃ tl, List.finRange m_numStars = firstStar :: tl ∧ firstStar ∉ tl := by
  have h : List.finRange m_numStars
      = firstStar :: (List.finRange 319).map Fin.succ := List.finRange_succ 319
  refine ⟨_, h, ?_⟩
  have hn := List.nodup_finRange m_numStars
  rw [h] at hn
  exact (List.nodup_cons.mp hn).1

section Chain

variable {K : Type} [LinearOrderedField K] (env : Env K) (now dt : K)

/-- While playing, `update()` is the star loop. -/
theorem update_playing (w : OpenGLWindow K) (hplay : w.isLose = false) :
    update env now dt w = some (updateStars env now dt w (List.finRange m_numStars)) := by
  unfold update
  simp [hplay]

/-- While lost with the restart-delay timer not past 5, `update()` is the star loop. -/
theorem update_waiting (w : OpenGLWindow K) (ht : ¬ 5 < w.m_restartWaitTimer.elapsed now) :
    update env now dt w = some (updateStars env now dt w (List.finRange m_numStars)) := by
  unfold update
  simp [ht]

/-- While lost with the restart-delay timer past 5, `update()` is `restart()`. -/
theorem update_restarting (w : OpenGLWindow K) (hlost : w.isLose = true)
    (ht : 5 < w.m_restartWaitTimer.elapsed now) :
    update env now dt w = restart env w := by
  unfold update
  simp [hlost, ht]

/-- The collision test of an iteration reads the position the iteration leaves. -/
theorem overlapsAtTurn_eq (w : OpenGLWindow K) (i : Fin m_numStars) :
    overlapsAtTurn env dt w i =
      (!w.isLose && collides w.m_shipPosition ((updateStar env now dt w i).m_starPositions i)) := by
  have h : (updateStar env now dt w i).m_starPositions
      = (moveStar env dt w i).m_starPositions := by
    rw [updateStar_eq]
    split_ifs
    · exact (registerHit_stars now _).1
    · rfl
  rw [h]
  rfl

/-- In an aligned tick the first star ends at the origin and overlaps the ship. -/
theorem aligned_first (w : OpenGLWindow K) (ha : Aligned dt w) :
    (updateStar env now dt w firstStar).m_starPositions firstStar = ⟨0, 0, 0⟩ ∧
      overlapsAtTurn env dt w firstStar = true := by
  obtain ⟨a1, a2, a3, a4, a5⟩ := ha
  have hpos : (updateStar env now dt w firstStar).m_starPositions firstStar = ⟨0, 0, 0⟩ := by
    rw [(updateStar_stars_playing env now dt w firstStar a1).1, Function.update_same, a5,
      if_neg (by norm_num), a3, a4]
  refine ⟨hpos, ?_⟩
  rw [overlapsAtTurn_eq env now dt, hpos, a1, a2]
  simp only [collides]
  norm_num

/-- In an aligned tick some star overlaps the ship, and the first star ends at the
origin. -/
theorem aligned_tick (w : OpenGLWindow K) (ha : Aligned dt w) :
    anyOverlap env now dt w (List.finRange m_numStars) = true ∧
      (updateStars env now dt w (List.finRange m_numStars)).m_starPositions firstStar
        = ⟨0, 0, 0⟩ := by
  obtain ⟨tl, htl, hnot⟩ := finRange_head
  obtain ⟨h1, h2⟩ := aligned_first env now dt w ha
  rw [htl]
  refine ⟨?_, ?_⟩
  · simp [anyOverlap, h2]
  · have hstep : updateStars env now dt w (firstStar :: tl)
        = updateStars env now dt (updateStar env now dt w firstStar) tl := rfl
    rw [hstep, (updateStars_other env now dt tl _ firstStar hnot).1]
    exact h1

/-- An aligned tick with the debounce timer past 1 registers exactly one hit; when
lives remain the next tick with frame time 0 is aligned again. -/
theorem aligned_hit (w : OpenGLWindow K) (ha : Aligned dt w)
    (ht : 1 < w.m_collisionTimer.elapsed now) :
    ∃ w', update env now dt w = some w' ∧ HitOutcome now w w' ∧ SameSetup w w' ∧
      (w.cont_collisions - 1 ≠ 0 → Aligned 0 w') := by
  obtain ⟨h1, h2⟩ := aligned_tick env now dt w ha
  have hg := (updateStars_game env now dt (List.finRange m_numStars) w ha.1).1 ⟨ht, h1⟩
  refine ⟨_, update_playing env now dt w ha.1, hg,
    updateStars_sameSetup env now dt _ w, fun hne => ?_⟩
  obtain ⟨-, -, -, g4⟩ := hg
  obtain ⟨g5, g6, -⟩ := g4 hne
  refine ⟨g5.trans ha.1, g6.trans ha.2.1, ?_, ?_, ?_⟩ <;> norm_num [h2]

/-- An aligned tick with the debounce timer not past 1 registers no hit, although
a star overlaps the ship; the next tick with frame time 0 is aligned again. -/
theorem aligned_miss (w : OpenGLWindow K) (ha : Aligned dt w)
    (ht : ¬ 1 < w.m_collisionTimer.elapsed now) :
    ∃ w', update env now dt w = some w' ∧ SameGame w w' ∧ SameSetup w w' ∧ Aligned 0 w' := by
  obtain ⟨-, h2⟩ := aligned_tick env now dt w ha
  have hg := updateStars_sameGame env now dt (List.finRange m_numStars) w (Or.inr ht)
  refine ⟨_, update_playing env now dt w ha.1, hg, updateStars_sameSetup env now dt _ w, ?_⟩
  obtain ⟨-, g2, -, -, g5⟩ := hg
  refine ⟨g2.trans ha.1, g5.trans ha.2.1, ?_, ?_, ?_⟩ <;> norm_num [h2]

end Chain


/-! ## The rational example run -/

section Run

/-- The draws of the rational example lie in their ranges. -/
theorem envQ_inRange : DrawsInRange envQ := by
  intro n a b hab
  simp only [envQ]
  split_ifs
  · exact ⟨hab, le_refl b⟩
  · constructor <;> linarith

/-- A position drawn in the rational example with the engine at a multiple of six. -/
theorem envQ_drawPosition (k : Nat) : drawPosition envQ (0 + 6 * k) = ⟨0, 0, -30⟩ := by
  have h0 : (0 + 6 * k) % 6 = 0 := by omega
  have h1 : (0 + 6 * k + 1) % 6 = 1 := by omega
  have h2 : (0 + 6 * k + 2) % 6 = 2 := by omega
  simp only [drawPosition, envQ, h0, h1, h2]
  norm_num

/-- The cold start of the rational example: it returns, five lives, the first
star straight ahead at depth -30, shader 0 active. -/
theorem coldQ_spec :
    ∃ c, coldQ = some c ∧ ColdStart envQ c ∧ Reachable envQ c ∧ Aligned 2 c ∧
      c.cont_collisions = 5 ∧ c.m_collisionTimer = ⟨0⟩ ∧ c.m_programs = compiledPrograms 0 ∧
      c.m_currentProgramIndex = 0 := by
  obtain ⟨c, hc⟩ := initializeGL_isSome envQ freshQ (le_refl 0) (by decide)
  have hcold : ColdStart envQ c := ⟨0, 0, _, _, hc⟩
  have o := initializeGL_spec envQ freshQ c hc
  refine ⟨c, hc, hcold, Reachable.init c hcold, ?_, o.lives, o.collisionTimer, o.programs,
    o.index⟩
  obtain ⟨k, hk, -⟩ := o.stars firstStar
  have hpos : c.m_starPositions firstStar = ⟨0, 0, -30⟩ := hk.trans (envQ_drawPosition k)
  refine ⟨o.lose, o.ship, ?_, ?_, ?_⟩ <;> norm_num [hpos]

/-- An aligned tick with the debounce timer past 1, taken from a reachable state
with lives to spare: one life less, timer restarted, aligned again. -/
theorem chain_hit (env : Env ℚ) (w : OpenGLWindow ℚ) (n : Int) (t now dt : ℚ)
    (hr : Reachable env w) (hdt : 0 ≤ dt) (ha : Aligned dt w) (hc : w.cont_collisions = n)
    (htm : w.m_collisionTimer = ⟨t⟩) (hlt : 1 < now - t) (hn : n - 1 ≠ 0) :
    ∃ w', update env now dt w = some w' ∧ Reachable env w' ∧ Aligned 0 w' ∧
      w'.cont_collisions = n - 1 ∧ w'.m_collisionTimer = ⟨now⟩ ∧ SameSetup w w' ∧
      anyOverlap env now dt w (List.finRange m_numStars) = true := by
  have ht : 1 < w.m_collisionTimer.elapsed now := by
    rw [htm]
    exact hlt
  obtain ⟨w', hu, ho, hs, hal⟩ := aligned_hit env now dt w ha ht
  refine ⟨w', hu, Reachable.step w w' hr (Or.inl ⟨now, dt, hdt, hu⟩), hal (hc ▸ hn), ?_, ho.2.1,
    hs, (aligned_tick env now dt w ha).1⟩
  rw [ho.1, hc]

/-- The first hit of the rational example: four lives left, debounce timer
restarted at 2, still playing and aligned. -/
theorem hitOnceQ_spec :
    ∃ c w, coldQ = some c ∧ update envQ 2 2 c = some w ∧ hitOnceQ = some w ∧
      Reachable envQ c ∧ Reachable envQ w ∧
      Aligned 2 c ∧ c.cont_collisions = 5 ∧ c.m_collisionTimer = ⟨0⟩ ∧
      anyOverlap envQ 2 2 c (List.finRange m_numStars) = true ∧
      Aligned 0 w ∧ w.cont_collisions = 4 ∧ w.m_collisionTimer = ⟨2⟩ ∧
      w.m_programs = compiledPrograms 0 ∧ w.m_currentProgramIndex = 0 := by
  obtain ⟨c, hc, -, hr, ha, h5, htm, hp, hi⟩ := coldQ_spec
  obtain ⟨w, hu, hrw, haw, hcw, htw, hs, hov⟩ :=
    chain_hit envQ c 5 0 2 2 hr (by norm_num) ha h5 htm (by norm_num) (by norm_num)
  refine ⟨c, w, hc, hu, ?_, hr, hrw, ha, h5, htm, hov, haw, ?_, htw, ?_, ?_⟩
  · unfold hitOnceQ
    rw [hc, Option.some_bind, hu]
  · rw [hcw]; norm_num
  · rw [hs.2.2.1, hp]
  · rw [hs.2.2.2.1, hi]

/-- A `paintUI()` frame keeps a tick aligned. -/
theorem aligned_of_paint {K : Type} [LinearOrderedField K] (ui : UIFrame) (d : K)
    (w w' : OpenGLWindow K) (o : PaintOutcome ui w w') (ha : Aligned d w) : Aligned d w' := by
  obtain ⟨a1, a2, a3, a4, a5⟩ := ha
  obtain ⟨-, g2, -, -, g5⟩ := o.game
  unfold Aligned
  rw [g2, g5, o.positions]
  exact ⟨a1, a2, a3, a4, a5⟩

/-- The loss of the rational example: the run returns a reachable lost state with
no lives, the restart-delay timer restarted at 10, shader 2 still selected and
the six cold-start programs. -/
theorem lostQ_spec :
    ∃ w, lostQ = some w ∧ Reachable envQ w ∧ w.isLose = true ∧ w.cont_collisions = 0 ∧
      w.m_restartWaitTimer = ⟨10⟩ ∧ w.m_currentProgramIndex = 2 ∧
      w.m_programs = compiledPrograms 0 := by
  obtain ⟨c, w1, -, -, h1, -, r1, -, -, -, -, a1, c1, t1, p1, i1⟩ := hitOnceQ_spec
  -- the user selects shader 2
  obtain ⟨w2, h2⟩ := paintUI_isSome envQ (uiSelectShader 2) w1 (reachable_uiInv envQ w1 r1) rfl
  obtain ⟨o, -⟩ := paintUI_outcome envQ (uiSelectShader 2) w1 w2 (reachable_uiInv envQ w1 r1) h2
  have r2 : Reachable envQ w2 := Reachable.step w1 w2 r1 (Or.inr (Or.inl ⟨_, h2⟩))
  have a2 := aligned_of_paint (uiSelectShader 2) 0 w1 w2 o a1
  have hcombo1 : w1.shaderComboIndex = 0 := by
    have := (reachable_uiInv envQ w1 r1).2.1
    rw [i1] at this
    omega
  have hsel : w2.shaderComboIndex = 2 := by
    rw [o.combo, hcombo1]
    rfl
  have i2 : w2.m_currentProgramIndex = 2 := by
    rw [o.index, hsel]
    rfl
  have c2 : w2.cont_collisions = 4 := o.game.1.trans c1
  have t2 : w2.m_collisionTimer = ⟨2⟩ := o.game.2.2.1.trans t1
  have p2 : w2.m_programs = compiledPrograms 0 := o.programs.trans p1
  -- three more hits with lives to spare
  obtain ⟨w3, h3, r3, a3, c3, t3, s3, -⟩ :=
    chain_hit envQ w2 4 2 4 0 r2 (le_refl 0) a2 c2 t2 (by norm_num) (by norm_num)
  obtain ⟨w4, h4, r4, a4, c4, t4, s4, -⟩ :=
    chain_hit envQ w3 3 4 6 0 r3 (le_refl 0) a3 (by rw [c3]; norm_num) t3 (by norm_num)
      (by norm_num)
  obtain ⟨w5, h5, r5, a5, c5, t5, s5, -⟩ :=
    chain_hit envQ w4 2 6 8 0 r4 (le_refl 0) a4 (by rw [c4]; norm_num) t4 (by norm_num)
      (by norm_num)
  have c5' : w5.cont_collisions = 1 := by rw [c5]; norm_num
  -- the last hit
  have ht5 : 1 < w5.m_collisionTimer.elapsed 10 := by
    rw [t5]
    norm_num [ElapsedTimer.elapsed]
  obtain ⟨w6, h6, ho, s6, -⟩ := aligned_hit envQ 10 0 w5 a5 ht5
  have r6 : Reachable envQ w6 := Reachable.step w5 w6 r5 (Or.inl ⟨10, 0, le_refl 0, h6⟩)
  obtain ⟨g1, -, g3, -⟩ := ho
  obtain ⟨g4, -, g5⟩ := g3 (by rw [c5']; norm_num)
  have hs := sameSetup_trans (sameSetup_trans (sameSetup_trans s3 s4) s5) s6
  refine ⟨w6, ?_, r6, g4, ?_, g5, ?_, ?_⟩
  · unfold lostQ
    rw [h1, Option.some_bind, h2, Option.some_bind, h3, Option.some_bind, h4, Option.some_bind,
      h5, Option.some_bind, h6]
  · rw [g1, c5']; norm_num
  · rw [hs.2.2.2.1, i2]
  · rw [hs.2.2.1, p2]

end Run


/-! ## The claims about the star loop: debounce (C1), loss (C4), recycling (C5) -/

section StarClaims

variable {K : Type} [LinearOrderedField K] (env : Env K)

/-- C4: take a tick of `update()` in the Playing state in which a hit is
registered (a star overlaps the ship while the debounce timer is past 1).
Remaining lives drop by one. If that brings them to zero, the state after the
tick is Lost, the ship is at depth 20 with x and y unchanged, and the
restart-delay timer has been restarted (it reads 0). If lives remain above
zero, the state after the tick is still Playing and the ship has not moved. -/
theorem loss_transition (now dt : K) (w : OpenGLWindow K) (hplay : w.isLose = false)
    (ht : 1 < w.m_collisionTimer.elapsed now)
    (ho : anyOverlap env now dt w (List.finRange m_numStars) = true) :
    ∃ w', update env now dt w = some w' ∧
      w'.cont_collisions = w.cont_collisions - 1 ∧
      (w.cont_collisions - 1 = 0 →
        w'.isLose = true ∧
        w'.m_shipPosition = ⟨w.m_shipPosition.x, w.m_shipPosition.y, 20⟩ ∧
        w'.m_restartWaitTimer.elapsed now = 0) ∧
      (0 < w.cont_collisions - 1 →
        w'.isLose = false ∧ w'.m_shipPosition = w.m_shipPosition) := by
  obtain ⟨g1, -, g3, g4⟩ :=
    (updateStars_game env now dt (List.finRange m_numStars) w hplay).1 ⟨ht, ho⟩
  refine ⟨_, update_playing env now dt w hplay, g1, fun hz => ?_, fun hpos => ?_⟩
  · obtain ⟨a1, a2, a3⟩ := g3 hz
    refine ⟨a1, a2, ?_⟩
    rw [a3]
    exact sub_self now
  · obtain ⟨a1, a2, -⟩ := g4 (ne_of_gt hpos)
    exact ⟨a1.trans hplay, a2⟩

/-- C5: take an iteration of the star loop of `update()`, with frame time
`dt ≥ 0`, evaluated for star `i` while the game state is Playing. The star is
recycled (six draws are taken and it gets the freshly drawn position and
normalised axis) if and only if its depth after adding `15 * dt` exceeds 0.1.
When it is not recycled its new depth is the old depth plus `15 * dt`, which is
not below the old depth, and its x, y and rotation axis are unchanged. No other
star is touched. Over a whole tick that ends in Playing, every star is treated
once by this rule. -/
theorem recycle_rule (now dt : K) (w : OpenGLWindow K) (hplay : w.isLose = false)
    (hdt : 0 ≤ dt) :
    (∀ i : Fin m_numStars,
      ((updateStar env now dt w i).m_randomEngine = w.m_randomEngine + 6 ↔
        1 / 10 < (w.m_starPositions i).z + dt * 15) ∧
      (1 / 10 < (w.m_starPositions i).z + dt * 15 →
        (updateStar env now dt w i).m_starPositions i = drawPosition env w.m_randomEngine ∧
        (updateStar env now dt w i).m_starRotations i
          = normalize env.inversesqrt (drawAxis env w.m_randomEngine)) ∧
      (¬ 1 / 10 < (w.m_starPositions i).z + dt * 15 →
        (updateStar env now dt w i).m_randomEngine = w.m_randomEngine ∧
        (updateStar env now dt w i).m_starPositions i
          = ⟨(w.m_starPositions i).x, (w.m_starPositions i).y,
              (w.m_starPositions i).z + dt * 15⟩ ∧
        (updateStar env now dt w i).m_starRotations i = w.m_starRotations i ∧
        (w.m_starPositions i).z ≤ ((updateStar env now dt w i).m_starPositions i).z) ∧
      (∀ j : Fin m_numStars, j ≠ i →
        (updateStar env now dt w i).m_starPositions j = w.m_starPositions j ∧
        (updateStar env now dt w i).m_starRotations j = w.m_starRotations j)) ∧
    (∃ w', update env now dt w = some w' ∧
      (w'.isLose = false →
        ∀ i : Fin m_numStars,
          StarRule env dt (w.m_starPositions i) (w.m_starRotations i)
            (w'.m_starPositions i) (w'.m_starRotations i))) := by
  refine ⟨fun i => ?_, _, update_playing env now dt w hplay, fun hend i => ?_⟩
  · obtain ⟨h1, h2, h3⟩ := updateStar_stars_playing env now dt w i hplay
    have hd : 0 ≤ dt * 15 := mul_nonneg hdt (by norm_num)
    refine ⟨?_, fun hz => ?_, fun hz => ?_, fun j hj => updateStar_other env now dt w i j hj⟩
    · rw [h3]
      constructor
      · intro he
        by_contra hz
        rw [if_neg hz] at he
        omega
      · intro hz
        rw [if_pos hz]
    · rw [h1, h2, Function.update_same, Function.update_same, if_pos hz, if_pos hz]
      exact ⟨rfl, rfl⟩
    · rw [h1, h2, h3, Function.update_same, Function.update_same, if_neg hz, if_neg hz,
        if_neg hz]
      refine ⟨rfl, rfl, rfl, ?_⟩
      show (w.m_starPositions i).z ≤ (w.m_starPositions i).z + dt * 15
      linarith
  · exact updateStars_rule env now dt (List.finRange m_numStars) (List.nodup_finRange _) w hdt
      hend i (List.mem_finRange i)

end StarClaims

/-- C1, counterexample to the claim as stated: in the rational example the first
tick (time 2) registers a hit in a tick where a star overlaps the ship, and
the tick exactly 1 second later (time 3) again has a star overlapping the ship
while the game is still being played; remaining lives go from 5 to 4 and stay
at 4, one decrement for two overlaps separated by exactly 1 second. -/
theorem debounce_at_one_second :
    ∃ c w₁ w₂, coldQ = some c ∧ update envQ 2 2 c = some w₁ ∧ update envQ 3 0 w₁ = some w₂ ∧
      Reachable envQ w₂ ∧
      c.isLose = false ∧ anyOverlap envQ 2 2 c (List.finRange m_numStars) = true ∧
      w₁.isLose = false ∧ anyOverlap envQ 3 0 w₁ (List.finRange m_numStars) = true ∧
      w₁.m_collisionTimer.elapsed 3 = 1 ∧
      c.cont_collisions = 5 ∧ w₁.cont_collisions = 4 ∧ w₂.cont_collisions = 4 ∧
      w₂.cont_collisions ≠ c.cont_collisions - 2 := by
  obtain ⟨c, w₁, hc, hu, -, -, hr1, ha, h5, -, hov, ha1, h4, htm, -, -⟩ := hitOnceQ_spec
  have hel : w₁.m_collisionTimer.elapsed 3 = 1 := by
    rw [htm]
    norm_num [ElapsedTimer.elapsed]
  obtain ⟨w₂, hu2, hs, -, -⟩ :=
    aligned_miss envQ 3 0 w₁ ha1 (by rw [hel]; exact lt_irrefl 1)
  have h42 : w₂.cont_collisions = 4 := hs.1.trans h4
  refine ⟨c, w₁, w₂, hc, hu, hu2, Reachable.step w₁ w₂ hr1 (Or.inl ⟨3, 0, le_refl 0, hu2⟩),
    ha.1, hov, ha1.1, (aligned_tick envQ 3 0 w₁ ha1).1, hel, h5, h4, h42, ?_⟩
  rw [h42, h5]
  decide

/-- C4, witness: a playing window with one life left whose first star overlaps
the ship, ticked at time 2. -/
theorem loss_transition_witness :
    (playingQ 1).isLose = false ∧ 1 < (playingQ 1).m_collisionTimer.elapsed 2 ∧
      anyOverlap envQ 2 0 (playingQ 1) (List.finRange m_numStars) = true ∧
      ∃ w', update envQ 2 0 (playingQ 1) = some w' ∧ w'.isLose = true ∧
        w'.m_shipPosition = ⟨0, 0, 20⟩ := by
  have ha : Aligned 0 (playingQ 1) := by
    refine ⟨rfl, rfl, rfl, rfl, ?_⟩
    show (0 : ℚ) + 0 * 15 = 0
    norm_num
  have ht : 1 < (playingQ 1).m_collisionTimer.elapsed 2 := by
    show (1 : ℚ) < 2 - 0
    norm_num
  have hov := (aligned_tick envQ 2 0 (playingQ 1) ha).1
  obtain ⟨w', h1, -, h3, -⟩ := loss_transition envQ 2 0 (playingQ 1) rfl ht hov
  obtain ⟨a1, a2, -⟩ := h3 (by decide)
  exact ⟨rfl, ht, hov, w', h1, a1, a2⟩

/-- C5, witness: a playing window with every star at the origin, ticked with
frame time 1: the first star passes the threshold and is recycled. -/
theorem recycle_rule_witness :
    (playingQ 5).isLose = false ∧ (0 : ℚ) ≤ 1 ∧
      (updateStar envQ 2 1 (playingQ 5) firstStar).m_starPositions firstStar
        = drawPosition envQ (playingQ 5).m_randomEngine := by
  have hz : (1 : ℚ) / 10 < ((playingQ 5).m_starPositions firstStar).z + 1 * 15 := by
    show (1 : ℚ) / 10 < 0 + 1 * 15
    norm_num
  exact ⟨rfl, zero_le_one,
    (((recycle_rule envQ 2 1 (playingQ 5) rfl zero_le_one).1 firstStar).2.1 hz).1⟩


/-! ## The claims about restart (C2, C3), the depth range (C6) and the UI (C9, C10) -/

section SetupClaims

variable {K : Type} [LinearOrderedField K] (env : Env K)

/-- C2, as amended: in every Lost state (with the active program index a valid
index of the program list once the six programs are appended, as it is in
every reachable state) a call to `update()` performs `restart()` if and only if
the restart-delay timer reads strictly more than 5 seconds; and `restart()`
returns a state with remaining lives 5 and game state Playing. -/
theorem restart_after_five_seconds (now dt : K) (w : OpenGLWindow K)
    (hlost : w.isLose = true) (h0 : 0 ≤ w.m_currentProgramIndex)
    (h1 : w.m_currentProgramIndex < w.m_programs.length + 6) :
    (update env now dt w = restart env w ↔ 5 < w.m_restartWaitTimer.elapsed now) ∧
      ∃ w', restart env w = some w' ∧ w'.cont_collisions = 5 ∧ w'.isLose = false := by
  obtain ⟨w', hw'⟩ := initializeGL_isSome env { w with isLose := false } h0 h1
  have o := initializeGL_spec env _ w' hw'
  refine ⟨⟨fun he => ?_, fun ht => update_restarting env now dt w hlost ht⟩,
    w', hw', o.lives, o.lose⟩
  by_contra ht
  rw [update_waiting env now dt w ht] at he
  have hr : restart env w = some w' := hw'
  rw [hr] at he
  have hl := congrArg (Option.map OpenGLWindow.isLose) he
  simp only [Option.map_some'] at hl
  have hs := updateStars_sameGame env now dt (List.finRange m_numStars) w (Or.inl hlost)
  rw [hs.2.1, hlost, o.lose] at hl
  exact Bool.noConfusion (Option.some.inj hl)

/-- C3, as amended: for every reachable state (so for every state reachable in
Lost) and every cold start, `restart()` returns a state that agrees with the
cold start in the UV-mapping mode (3), the ship position `(0, 0, -0.1)`,
remaining lives (5), the game state (Playing) and the programs at the six
selectable indices 0..5 (the six of the fixed list, in order); and the
selected program index is the one selected before the restart, while a cold
start has index 0. -/
theorem restart_versus_cold_start (w c : OpenGLWindow K) (hw : Reachable env w)
    (hc : ColdStart env c) :
    ∃ w', restart env w = some w' ∧
      w'.m_mappingMode = c.m_mappingMode ∧ w'.m_shipPosition = c.m_shipPosition ∧
      w'.cont_collisions = c.cont_collisions ∧ w'.isLose = c.isLose ∧
      w'.m_programs.take 6 = c.m_programs ∧
      w'.m_currentProgramIndex = w.m_currentProgramIndex ∧
      (c.m_mappingMode = 3 ∧ c.m_shipPosition = ⟨0, 0, -(1 / 10)⟩ ∧ c.cont_collisions = 5 ∧
        c.isLose = false ∧ c.m_programs = compiledPrograms 0 ∧
        c.m_currentProgramIndex = 0) := by
  obtain ⟨i1, i2, i3, -, -, -⟩ := reachable_uiInv env w hw
  have hlen : 6 ≤ w.m_programs.length := by
    have := congrArg List.length i1
    simp only [List.length_take, compiledPrograms, List.length_cons, List.length_nil] at this
    omega
  obtain ⟨w', hw'⟩ := initializeGL_isSome env { w with isLose := false }
    (by show 0 ≤ w.m_currentProgramIndex; omega)
    (by show w.m_currentProgramIndex < w.m_programs.length + 6; omega)
  have o := initializeGL_spec env _ w' hw'
  obtain ⟨tc, tr, pos, rot, hinit⟩ := hc
  have oc := initializeGL_spec env _ c hinit
  have hcp : c.m_programs = compiledPrograms 0 := oc.programs
  refine ⟨w', hw', o.mode.trans oc.mode.symm, o.ship.trans oc.ship.symm,
    o.lives.trans oc.lives.symm, o.lose.trans oc.lose.symm, ?_, o.index,
    oc.mode, oc.ship, oc.lives, oc.lose, hcp, oc.index⟩
  rw [o.programs, hcp]
  show (w.m_programs ++ compiledPrograms w.glPrograms).take 6 = compiledPrograms 0
  rw [List.take_append_of_le_length hlen]
  exact i1

/-- C6: when every random draw lies within the range of its distribution, in
every state reachable from `initializeGL()` by `update()` ticks with
non-negative frame time (restarts included), `paintUI()` frames and key events,
whenever the game state is Playing every one of the 320 stars has its depth in
`[-100, 0.1]`; and every star that `randomizeStar` has just recycled, or
`initializeGL()` has just set up, has x and y in `[-30, 30]` and depth in
`[-100, -30]`. -/
theorem depth_range_invariant (hr : DrawsInRange env) (w : OpenGLWindow K)
    (h : Reachable env w) :
    m_numStars = 320 ∧
      (w.isLose = false →
        ∀ i : Fin m_numStars,
          -100 ≤ (w.m_starPositions i).z ∧ (w.m_starPositions i).z ≤ 1 / 10) ∧
      (∀ (index : Fin m_numStars) (v : OpenGLWindow K),
        InSpawnBox ((randomizeStar env index v).m_starPositions index)) ∧
      (∀ v v' : OpenGLWindow K, initializeGL env v = some v' →
        ∀ i : Fin m_numStars, InSpawnBox (v'.m_starPositions i)) := by
  refine ⟨rfl, reachable_depthOK env hr w h, fun index v => ?_,
    fun v v' hv i => initializeGL_spawnBox env hr v v' hv i⟩
  have : (randomizeStar env index v).m_starPositions index
      = drawPosition env v.m_randomEngine := by
    simp [randomizeStar]
  rw [this]
  exact drawPosition_inSpawnBox env hr _

/-- C9: in every reachable state the shader block of a `paintUI()` frame returns,
and the shader selection after the frame's clicks is the active program index.
If that selection differs from the previous active index, `setupVAO` has run
exactly once more on the obstacle model and exactly once more on the ship, both
against the newly active program. If it equals the previous active index,
neither model is touched and the active index is unchanged. The rest of the
frame changes none of this: whenever the whole frame returns, the same holds of
its result, and a following frame that leaves the selection as it is rebuilds
nothing. For an obstacle mesh with texture coordinates the whole frame always
returns. -/
theorem shader_rebuild_once (ui : UIFrame) (w : OpenGLWindow K) (hr : Reachable env w) :
    (∃ w₁, paintShaderCombo ui w = some w₁ ∧
      w₁.shaderComboIndex = comboLoop ui.shaderComboOpen ui.shaderSelectable
        m_shaderNames.length w.shaderComboIndex ∧
      w₁.m_currentProgramIndex = (w₁.shaderComboIndex : Int) ∧
      ((w₁.shaderComboIndex : Int) ≠ w.m_currentProgramIndex →
        w₁.m_star.setupVAOCalls = w.m_star.setupVAOCalls + 1 ∧
        w₁.m_ship.setupVAOCalls = w.m_ship.setupVAOCalls + 1 ∧
        ∃ p, vectorAt w₁.m_programs w₁.m_currentProgramIndex = some p ∧
          w₁.m_star.vao = some p ∧ w₁.m_ship.vao = some p) ∧
      ((w₁.shaderComboIndex : Int) = w.m_currentProgramIndex →
        w₁.m_star = w.m_star ∧ w₁.m_ship = w.m_ship ∧
        w₁.m_currentProgramIndex = w.m_currentProgramIndex)) ∧
    (∀ w', paintUI ui w = some w' →
      w'.shaderComboIndex = comboLoop ui.shaderComboOpen ui.shaderSelectable
        m_shaderNames.length w.shaderComboIndex ∧
      w'.m_currentProgramIndex = (w'.shaderComboIndex : Int) ∧
      ((w'.shaderComboIndex : Int) ≠ w.m_currentProgramIndex →
        w'.m_star.setupVAOCalls = w.m_star.setupVAOCalls + 1 ∧
        w'.m_ship.setupVAOCalls = w.m_ship.setupVAOCalls + 1 ∧
        ∃ p, vectorAt w'.m_programs w'.m_currentProgramIndex = some p ∧
          w'.m_star.vao = some p ∧ w'.m_ship.vao = some p) ∧
      ((w'.shaderComboIndex : Int) = w.m_currentProgramIndex →
        w'.m_star = w.m_star ∧ w'.m_ship = w.m_ship ∧
        w'.m_currentProgramIndex = w.m_currentProgramIndex) ∧
      (∀ (ui₂ : UIFrame) (w'' : OpenGLWindow K),
        comboLoop ui₂.shaderComboOpen ui₂.shaderSelectable m_shaderNames.length
          w'.shaderComboIndex = w'.shaderComboIndex →
        paintUI ui₂ w' = some w'' →
        w''.m_star = w'.m_star ∧ w''.m_ship = w'.m_ship ∧
          w''.m_currentProgramIndex = w'.m_currentProgramIndex)) ∧
    (env.hasUV "Mercury.obj" = true → ∃ w', paintUI ui w = some w') := by
  have hinv := reachable_uiInv env w hr
  refine ⟨?_, fun w' hw' => ?_, fun huv => paintUI_isSome env ui w hinv huv⟩
  · obtain ⟨w₁, h1, c1, -, c3, c4, c5, c6, -⟩ := paintShaderCombo_spec env ui w hinv
    refine ⟨w₁, h1, c1, c3, fun hne => ?_, fun he => ?_⟩
    · obtain ⟨p, hp, hs, hsh⟩ := c4 hne
      rw [hs, hsh, c6]
      exact ⟨rfl, rfl, p, hp, rfl, rfl⟩
    · obtain ⟨hs, hsh⟩ := c5 he
      exact ⟨hs, hsh, c3.trans he⟩
  · obtain ⟨o, hinv'⟩ := paintUI_outcome env ui w w' hinv hw'
    refine ⟨o.combo, o.index, fun hne => ?_, fun he => ?_, fun ui₂ w'' hkeep hw'' => ?_⟩
    · obtain ⟨p, hp, hs, hsh⟩ := o.rebuilt hne
      rw [hs, hsh, o.programs]
      exact ⟨rfl, rfl, p, hp, rfl, rfl⟩
    · obtain ⟨hs, hsh⟩ := o.kept he
      exact ⟨hs, hsh, o.index.trans he⟩
    · obtain ⟨o₂, -⟩ := paintUI_outcome env ui₂ w' w'' hinv' hw''
      have he : (w''.shaderComboIndex : Int) = w'.m_currentProgramIndex := by
        rw [o₂.combo, hkeep, o.index]
      obtain ⟨hs, hsh⟩ := o₂.kept he
      exact ⟨hs, hsh, o₂.index.trans he⟩

/-- For an obstacle mesh with texture coordinates, in every
reachable state the UV-mapping mode is an index of the list `paintUI()` offers. -/
theorem mapping_mode_valid (w : OpenGLWindow K) (hr : Reachable env w)
    (huv : env.hasUV "Mercury.obj" = true) :
    ∃ item, vectorAt (comboItems w) w.m_mappingMode = some item := by
  obtain ⟨-, -, -, i4, i5, i6⟩ := reachable_uiInv env w hr
  unfold vectorAt
  rw [if_pos i4]
  refine ⟨_, List.getElem?_eq_getElem ?_⟩
  rw [comboItems_length, if_pos (i6.trans huv)]
  omega

end SetupClaims


/-! ## Witnesses and counterexamples on the example runs -/

/-- C2, witness: the lost state of the rational example, polled at time 16. -/
theorem restart_after_five_seconds_witness :
    ∃ w, lostQ = some w ∧ w.isLose = true ∧
      (update envQ 16 0 w = restart envQ w ↔ 5 < w.m_restartWaitTimer.elapsed 16) ∧
      ∃ w', restart envQ w = some w' ∧ w'.cont_collisions = 5 ∧ w'.isLose = false := by
  obtain ⟨w, hw, -, hl, -, -, hi, hp⟩ := lostQ_spec
  obtain ⟨h1, h2⟩ := restart_after_five_seconds envQ 16 0 w hl (by rw [hi]; decide)
    (by rw [hi, hp]; decide)
  exact ⟨w, hw, hl, h1, h2⟩

/-- C2, counterexample to the claim as stated: the lost state of the rational
example entered Lost at time 10; polled at time 15, exactly 5 seconds later,
`update()` does not perform `restart()`: the state stays Lost with no lives. -/
theorem no_restart_at_five_seconds :
    ∃ w w', lostQ = some w ∧ Reachable envQ w ∧ w.isLose = true ∧
      w.m_restartWaitTimer.elapsed 15 = 5 ∧ update envQ 15 0 w = some w' ∧
      w'.isLose = true ∧ w'.cont_collisions = 0 ∧ update envQ 15 0 w ≠ restart envQ w := by
  obtain ⟨w, hw, hr, hl, hc, ht, hi, hp⟩ := lostQ_spec
  have hel : w.m_restartWaitTimer.elapsed 15 = 5 := by
    rw [ht]
    norm_num [ElapsedTimer.elapsed]
  have hu := update_waiting envQ 15 0 w (by rw [hel]; exact lt_irrefl 5)
  have hs := updateStars_sameGame envQ 15 0 (List.finRange m_numStars) w (Or.inl hl)
  obtain ⟨w'', hw''⟩ := initializeGL_isSome envQ { w with isLose := false }
    (by show 0 ≤ w.m_currentProgramIndex; rw [hi]; decide)
    (by show w.m_currentProgramIndex < w.m_programs.length + 6; rw [hi, hp]; decide)
  have o := initializeGL_spec envQ _ w'' hw''
  refine ⟨w, _, hw, hr, hl, hel, hu, hs.2.1.trans hl, hs.1.trans hc, fun he => ?_⟩
  have hrs : restart envQ w = some w'' := hw''
  rw [hu, hrs] at he
  have hl' := congrArg (Option.map OpenGLWindow.isLose) he
  simp only [Option.map_some'] at hl'
  rw [hs.2.1, hl, o.lose] at hl'
  exact Bool.noConfusion (Option.some.inj hl')

/-- C3, witness: the lost state of the rational example against its cold start. -/
theorem restart_versus_cold_start_witness :
    ∃ w c w', lostQ = some w ∧ coldQ = some c ∧ Reachable envQ w ∧ ColdStart envQ c ∧
      restart envQ w = some w' ∧ w'.m_mappingMode = c.m_mappingMode ∧
      w'.m_programs.take 6 = c.m_programs ∧
      w'.m_currentProgramIndex = w.m_currentProgramIndex := by
  obtain ⟨w, hw, hr, -⟩ := lostQ_spec
  obtain ⟨c, hc, hcold, -⟩ := coldQ_spec
  obtain ⟨w', h1, h2, -, -, -, h6, h7, -⟩ := restart_versus_cold_start envQ w c hr hcold
  exact ⟨w, c, w', hw, hc, hr, hcold, h1, h2, h6, h7⟩

/-- C3, counterexample to the claim as stated: in the rational example the user
selected shader 2 before losing; after `restart()` from the reachable lost
state the selected program index is still 2, not the 0 of the cold start, and
the program list holds twelve programs, not the six of the cold start. -/
theorem restart_not_cold_start :
    ∃ w c w', lostQ = some w ∧ coldQ = some c ∧ Reachable envQ w ∧ w.isLose = true ∧
      ColdStart envQ c ∧ restart envQ w = some w' ∧
      w'.m_currentProgramIndex = 2 ∧ c.m_currentProgramIndex = 0 ∧
      w'.m_programs.length = 12 ∧ c.m_programs.length = 6 ∧
      w'.m_programs ≠ c.m_programs := by
  obtain ⟨w, hw, hr, hl, -, -, hi, hp⟩ := lostQ_spec
  obtain ⟨c, hc, hcold, -, -, -, -, hcp, hci⟩ := coldQ_spec
  obtain ⟨w', hw'⟩ := initializeGL_isSome envQ { w with isLose := false }
    (by show 0 ≤ w.m_currentProgramIndex; rw [hi]; decide)
    (by show w.m_currentProgramIndex < w.m_programs.length + 6; rw [hi, hp]; decide)
  have o := initializeGL_spec envQ _ w' hw'
  have hlen : w'.m_programs.length = 12 := by
    rw [o.programs]
    show (w.m_programs ++ compiledPrograms w.glPrograms).length = 12
    rw [hp]
    rfl
  have hclen : c.m_programs.length = 6 := by
    rw [hcp]
    rfl
  refine ⟨w, c, w', hw, hc, hr, hl, hcold, hw', o.index.trans hi, hci, hlen, hclen, fun he => ?_⟩
  rw [he, hclen] at hlen
  exact absurd hlen (by decide)

/-- C6, witness: the cold start of the rational example, whose draws lie in
their ranges. -/
theorem depth_range_invariant_witness :
    DrawsInRange envQ ∧ ∃ c, coldQ = some c ∧ Reachable envQ c ∧
      (c.isLose = false →
        ∀ i : Fin m_numStars,
          -100 ≤ (c.m_starPositions i).z ∧ (c.m_starPositions i).z ≤ 1 / 10) := by
  obtain ⟨c, hc, -, hr, -⟩ := coldQ_spec
  exact ⟨envQ_inRange, c, hc, hr, (depth_range_invariant envQ envQ_inRange c hr).2.1⟩

/-- C9, witness: the cold start of the rational example, where the user clicks
shader 2: both models are rebuilt once. -/
theorem shader_rebuild_once_witness :
    ∃ c w', coldQ = some c ∧ Reachable envQ c ∧
      paintUI (uiSelectShader 2) c = some w' ∧ w'.m_currentProgramIndex = 2 ∧
      w'.m_star.setupVAOCalls = c.m_star.setupVAOCalls + 1 ∧
      w'.m_ship.setupVAOCalls = c.m_ship.setupVAOCalls + 1 := by
  obtain ⟨c, hc, -, hr, -, -, -, -, hi⟩ := coldQ_spec
  obtain ⟨-, hB, hC⟩ := shader_rebuild_once envQ (uiSelectShader 2) c hr
  obtain ⟨w', h1⟩ := hC rfl
  obtain ⟨h2, h3, h4, -⟩ := hB w' h1
  have hcombo : c.shaderComboIndex = 0 := by
    have := (reachable_uiInv envQ c hr).2.1
    rw [hi] at this
    omega
  have hsel : w'.shaderComboIndex = 2 := by
    rw [h2, hcombo]
    rfl
  have hidx : w'.m_currentProgramIndex = 2 := by
    rw [h3, hsel]
    rfl
  obtain ⟨a1, a2, -⟩ := h4 (by rw [hsel, hi]; decide)
  exact ⟨c, w', hc, hr, h1, hidx, a1, a2⟩

/-- C10, the code at the failing input: for an obstacle mesh without texture
coordinates the cold start returns a state whose UV-mapping mode is 3 while
`paintUI()` offers the three entries 0..2, so `comboItems.at(m_mappingMode)` is
out of range and every `paintUI()` frame throws. -/
theorem mapping_mode_out_of_range :
    ∃ w, initializeGL envNoUV freshQ = some w ∧ Reachable envNoUV w ∧
      w.m_star.isUVMapped = false ∧ w.m_mappingMode = 3 ∧
      comboItems w = ["Triplanar", "Cylindrical", "Spherical"] ∧
      vectorAt (comboItems w) w.m_mappingMode = none ∧
      ∀ ui : UIFrame, paintUI ui w = none := by
  obtain ⟨w, hw⟩ := initializeGL_isSome envNoUV freshQ (le_refl 0) (by decide)
  have hr : Reachable envNoUV w := Reachable.init w ⟨0, 0, _, _, hw⟩
  have o := initializeGL_spec envNoUV freshQ w hw
  have huv : w.m_star.uvMapped = false := o.starUV
  have hitems : ∀ v : OpenGLWindow ℚ, v.m_star.uvMapped = false →
      comboItems v = ["Triplanar", "Cylindrical", "Spherical"] := by
    intro v hv
    unfold comboItems Model.isUVMapped
    rw [hv]
    rfl
  have hnone : ∀ v : OpenGLWindow ℚ, v.m_star.uvMapped = false → v.m_mappingMode = 3 →
      vectorAt (comboItems v) v.m_mappingMode = none := by
    intro v hv hm
    rw [hitems v hv, hm]
    rfl
  refine ⟨w, hw, hr, huv, o.mode, hitems w huv, hnone w huv o.mode, fun ui => ?_⟩
  obtain ⟨w1, hw1, -, -, -, -, -, -, -, -, -, c10, c11⟩ :=
    paintShaderCombo_spec envNoUV ui w (reachable_uiInv envNoUV w hr)
  unfold paintUI
  rw [hw1, Option.some_bind]
  unfold paintMappingCombo
  rw [hnone w1 (c11.trans huv) (c10.trans o.mode)]
  rfl


/-! ## Debounce over sequences of ticks (C1) -/

section Debounce

variable {K : Type} [LinearOrderedField K] (env : Env K)

/-- One tick in the Playing state, exactly: a hit is registered when some star
overlaps the ship with the debounce timer past 1, and then lives drop by one and
the timer restarts; otherwise lives and timer are untouched. -/
theorem update_debounce (now dt : K) (w : OpenGLWindow K) (hplay : w.isLose = false) :
    ∃ w', update env now dt w = some w' ∧
      w' = updateStars env now dt w (List.finRange m_numStars) ∧
      (anyOverlap env now dt w (List.finRange m_numStars) = true ∧
          1 < w.m_collisionTimer.elapsed now →
        w'.cont_collisions = w.cont_collisions - 1 ∧ w'.m_collisionTimer = ⟨now⟩ ∧
          (w.cont_collisions - 1 ≠ 0 → w'.isLose = false)) ∧
      (¬ (anyOverlap env now dt w (List.finRange m_numStars) = true ∧
          1 < w.m_collisionTimer.elapsed now) →
        w'.cont_collisions = w.cont_collisions ∧
          w'.m_collisionTimer = w.m_collisionTimer ∧ w'.isLose = false) := by
  obtain ⟨k1, k2⟩ := updateStars_game env now dt (List.finRange m_numStars) w hplay
  refine ⟨_, update_playing env now dt w hplay, rfl, fun h => ?_, fun h => ?_⟩
  · obtain ⟨g1, g2, -, g4⟩ := k1 ⟨h.2, h.1⟩
    exact ⟨g1, g2, fun hne => (g4 hne).1.trans hplay⟩
  · obtain ⟨g1, g2, g3, -⟩ := k2 (fun h' => h ⟨h'.2, h'.1⟩)
    exact ⟨g1, g3, g2.trans hplay⟩

/-- A sequence of ticks played from the Playing state with lives to spare: it
returns, still Playing; lives have dropped by the number of hits the debounce
rule registers, and the debounce timer was last restarted at the last of them. -/
theorem runTicks_debounce (ticks : List (K × K)) (w : OpenGLWindow K)
    (hplay : w.isLose = false)
    (hlives : (registeredHits env w.m_collisionTimer.start w ticks : Int)
      < w.cont_collisions) :
    ∃ w', runTicks env ticks w = some w' ∧ w'.isLose = false ∧
      w'.cont_collisions
        = w.cont_collisions - registeredHits env w.m_collisionTimer.start w ticks ∧
      w'.m_collisionTimer = ⟨lastHit env w.m_collisionTimer.start w ticks⟩ := by
  induction ticks generalizing w with
  | nil =>
    refine ⟨w, rfl, hplay, ?_, rfl⟩
    simp [registeredHits]
  | cons tick ticks ih =>
    obtain ⟨now, dt⟩ := tick
    obtain ⟨w₁, hu, hw₁, hhit, hmiss⟩ := update_debounce env now dt w hplay
    have hrun : runTicks env ((now, dt) :: ticks) w = runTicks env ticks w₁ := by
      rw [runTicks, hu, Option.some_bind]
    rw [hrun]
    by_cases hc : anyOverlap env now dt w (List.finRange m_numStars) = true ∧
        1 < now - w.m_collisionTimer.start
    · rw [registeredHits, if_pos hc] at hlives
      rw [registeredHits, if_pos hc, lastHit, if_pos hc]
      obtain ⟨g1, g2, g3⟩ := hhit hc
      have hstart : w₁.m_collisionTimer.start = now := by rw [g2]
      rw [← hw₁, ← hstart] at hlives ⊢
      push_cast at hlives ⊢
      have hne : w.cont_collisions - 1 ≠ 0 := by omega
      obtain ⟨w', h1, h2, h3, h4⟩ := ih w₁ (g3 hne) (by rw [g1]; omega)
      refine ⟨w', h1, h2, ?_, h4⟩
      rw [h3, g1]
      ring
    · rw [registeredHits, if_neg hc] at hlives
      rw [registeredHits, if_neg hc, lastHit, if_neg hc]
      obtain ⟨g1, g2, g3⟩ := hmiss hc
      have hstart : w₁.m_collisionTimer.start = w.m_collisionTimer.start := by rw [g2]
      rw [← hw₁, ← hstart] at hlives ⊢
      obtain ⟨w', h1, h2, h3, h4⟩ := ih w₁ g3 (by rw [g1]; exact hlives)
      refine ⟨w', h1, h2, ?_, h4⟩
      rw [h3, g1]

/-- C1, as amended: the debounce timer is restarted on every registered hit and
only then, and an overlap is registered exactly when the timer reads strictly
more than 1 second. For every sequence of ticks of `update()` played from a
Playing state with lives to spare, the run returns still Playing, remaining
lives have dropped by the number of ticks in which a star overlaps the ship
more than 1 second after the last registered hit (`registeredHits`), and the
timer was last restarted at the last such tick. For one tick: overlaps with the
timer past 1 decrement exactly once, however many stars overlap, and restart
the timer; any other tick leaves lives and timer untouched. For two ticks, the
first with a registered hit: a second overlap 1 second or less after it leaves
the total at one decrement, one more than 1 second after it makes it two. -/
theorem debounce_exactly_once (w : OpenGLWindow K) (hplay : w.isLose = false) :
    (∀ ticks : List (K × K),
      (registeredHits env w.m_collisionTimer.start w ticks : Int) < w.cont_collisions →
      ∃ w', runTicks env ticks w = some w' ∧ w'.isLose = false ∧
        w'.cont_collisions
          = w.cont_collisions - registeredHits env w.m_collisionTimer.start w ticks ∧
        w'.m_collisionTimer = ⟨lastHit env w.m_collisionTimer.start w ticks⟩) ∧
    (∀ now dt : K,
      ∃ w', update env now dt w = some w' ∧
        (anyOverlap env now dt w (List.finRange m_numStars) = true ∧
            1 < w.m_collisionTimer.elapsed now →
          w'.cont_collisions = w.cont_collisions - 1 ∧ w'.m_collisionTimer = ⟨now⟩) ∧
        (¬ (anyOverlap env now dt w (List.finRange m_numStars) = true ∧
            1 < w.m_collisionTimer.elapsed now) →
          w'.cont_collisions = w.cont_collisions ∧
            w'.m_collisionTimer = w.m_collisionTimer)) ∧
    (∀ now₁ dt₁ now₂ dt₂ : K,
      1 < w.m_collisionTimer.elapsed now₁ →
      anyOverlap env now₁ dt₁ w (List.finRange m_numStars) = true →
      ∃ w₁, update env now₁ dt₁ w = some w₁ ∧
        w₁.cont_collisions = w.cont_collisions - 1 ∧
        w₁.m_collisionTimer.elapsed now₂ = now₂ - now₁ ∧
        (w₁.isLose = false →
          ∃ w₂, update env now₂ dt₂ w₁ = some w₂ ∧
            (now₂ - now₁ ≤ 1 → w₂.cont_collisions = w.cont_collisions - 1) ∧
            (1 < now₂ - now₁ →
              anyOverlap env now₂ dt₂ w₁ (List.finRange m_numStars) = true →
              w₂.cont_collisions = w.cont_collisions - 2) ∧
            (anyOverlap env now₂ dt₂ w₁ (List.finRange m_numStars) = false →
              w₂.cont_collisions = w.cont_collisions - 1))) := by
  refine ⟨fun ticks hl => runTicks_debounce env ticks w hplay hl, fun now dt => ?_,
    fun now₁ dt₁ now₂ dt₂ h1 ho1 => ?_⟩
  · obtain ⟨w', hu, -, hhit, hmiss⟩ := update_debounce env now dt w hplay
    exact ⟨w', hu, fun h => ⟨(hhit h).1, (hhit h).2.1⟩, fun h => ⟨(hmiss h).1, (hmiss h).2.1⟩⟩
  · obtain ⟨w₁, hu, -, hhit, -⟩ := update_debounce env now₁ dt₁ w hplay
    obtain ⟨g1, g2, -⟩ := hhit ⟨ho1, h1⟩
    have hel : w₁.m_collisionTimer.elapsed now₂ = now₂ - now₁ := by
      rw [g2]
      rfl
    refine ⟨w₁, hu, g1, hel, fun hplay₁ => ?_⟩
    obtain ⟨w₂, hu₂, -, hhit₂, hmiss₂⟩ := update_debounce env now₂ dt₂ w₁ hplay₁
    refine ⟨w₂, hu₂, fun hle => ?_, fun hlt hov => ?_, fun hno => ?_⟩
    · rw [(hmiss₂ (fun h => absurd h.2 (by rw [hel]; exact not_lt.mpr hle))).1, g1]
    · rw [(hhit₂ ⟨hov, by rw [hel]; exact hlt⟩).1, g1]
      ring
    · rw [(hmiss₂ (fun h => by rw [hno] at h; exact Bool.false_ne_true h.1)).1, g1]

/-- In an aligned tick some star overlaps the ship; lives and timer change as the
debounce rule says, and the next tick with frame time 0 is aligned again unless
the game is lost. -/
theorem aligned_step (now dt : K) (w : OpenGLWindow K) (ha : Aligned dt w) :
    anyOverlap env now dt w (List.finRange m_numStars) = true ∧
      (1 < w.m_collisionTimer.elapsed now →
        (updateStars env now dt w (List.finRange m_numStars)).cont_collisions
            = w.cont_collisions - 1 ∧
          (w.cont_collisions - 1 ≠ 0 →
            Aligned 0 (updateStars env now dt w (List.finRange m_numStars)))) ∧
      (¬ 1 < w.m_collisionTimer.elapsed now →
        (updateStars env now dt w (List.finRange m_numStars)).cont_collisions
            = w.cont_collisions ∧
          Aligned 0 (updateStars env now dt w (List.finRange m_numStars))) := by
  have hu := update_playing env now dt w ha.1
  refine ⟨(aligned_tick env now dt w ha).1, fun ht => ?_, fun ht => ?_⟩
  · obtain ⟨w', hu', ho, -, hal⟩ := aligned_hit env now dt w ha ht
    rw [hu] at hu'
    rw [Option.some.inj hu']
    exact ⟨ho.1, hal⟩
  · obtain ⟨w', hu', hs, -, hal⟩ := aligned_miss env now dt w ha ht
    rw [hu] at hu'
    rw [Option.some.inj hu']
    exact ⟨hs.1, hal⟩

end Debounce

/-- C1, witness: a playing window with five lives whose first star overlaps the
ship in every tick, ticked at times 2, 2.5 and 3.2: the overlaps at 2 and at
3.2 are registered, the one at 2.5 is not, and three lives remain. -/
theorem debounce_exactly_once_witness :
    (playingQ 5).isLose = false ∧
      registeredHits envQ (playingQ 5).m_collisionTimer.start (playingQ 5)
        [(2, 0), (5 / 2, 0), (16 / 5, 0)] = 2 ∧
      ∃ w', runTicks envQ [(2, 0), (5 / 2, 0), (16 / 5, 0)] (playingQ 5) = some w' ∧
        w'.isLose = false ∧ w'.cont_collisions = 3 := by
  have ha0 : Aligned 0 (playingQ 5) := by
    refine ⟨rfl, rfl, rfl, rfl, ?_⟩
    show (0 : ℚ) + 0 * 15 = 0
    norm_num
  have ht0 : 1 < (playingQ 5).m_collisionTimer.elapsed 2 := by
    show (1 : ℚ) < 2 - 0
    norm_num
  obtain ⟨hov0, hit0, -⟩ := aligned_step envQ 2 0 (playingQ 5) ha0
  obtain ⟨hc1, hal1⟩ := hit0 ht0
  have ha1 := hal1 (by decide)
  obtain ⟨hov1, -, -⟩ := aligned_step envQ (5 / 2) 0 _ ha1
  have ha2 : Aligned 0 (updateStars envQ (5 / 2) 0
      (updateStars envQ 2 0 (playingQ 5) (List.finRange m_numStars))
      (List.finRange m_numStars)) := by
    obtain ⟨-, hit1, miss1⟩ := aligned_step envQ (5 / 2) 0 _ ha1
    by_cases ht : 1 < (updateStars envQ 2 0 (playingQ 5)
        (List.finRange m_numStars)).m_collisionTimer.elapsed (5 / 2)
    · refine (hit1 ht).2 ?_
      rw [hc1]
      decide
    · exact (miss1 ht).2
  obtain ⟨hov2, -, -⟩ := aligned_step envQ (16 / 5) 0 _ ha2
  have hcount : registeredHits envQ (playingQ 5).m_collisionTimer.start (playingQ 5)
      [(2, 0), (5 / 2, 0), (16 / 5, 0)] = 2 := by
    have hs : (playingQ 5).m_collisionTimer.start = 0 := rfl
    rw [hs, registeredHits, if_pos ⟨hov0, by norm_num⟩, registeredHits,
      if_neg (fun h => absurd h.2 (by norm_num)), registeredHits,
      if_pos ⟨hov2, by norm_num⟩, registeredHits]
  obtain ⟨w', h1, h2, h3, -⟩ :=
    (debounce_exactly_once envQ (playingQ 5) rfl).1 [(2, 0), (5 / 2, 0), (16 / 5, 0)]
      (by rw [hcount]; decide)
  refine ⟨rfl, hcount, w', h1, h2, ?_⟩
  rw [h3, hcount]
  rfl


/-! ## Rotation axes (C8) -/

end Atv3
